import Mathlib

/-!
Shallow embedding of the declarative-strategy core of `deep_quant2`:
the expression tokenizer / parsers / AST evaluation
(`src/strategy/expression/*`), the trigger registry
(`src/strategy/trigger_system.py`) and the per-bar trigger-execution
engine (`src/strategy/base.py`).

Modelling conventions:
* Python floats are modelled as exact rationals (`ℚ`); none of the
  verified claims depends on binary floating-point rounding.
* Python exceptions become an explicit error type `PyExc` carried in
  `Except`; each constructor corresponds to one exception class of the
  source, and carries the formatted message string.
* Python dicts (which preserve insertion order) become association
  lists updated by `setAssoc` (update in place if the key exists,
  append otherwise); `next(iter(d))` is the head of the list.
* Recursive-descent parsing and the tokenizer scan loop are written
  with an explicit fuel counter (the source relies on each step
  consuming input for termination); top-level entry points supply
  fuel ample for any input, and theorems about the parsers quantify
  over the fuel.
* The broker / market-data collaborator (`backtrader`) is external to
  the repository; its order submissions and condition contexts enter
  the engine model as explicit outcome parameters.
-/

namespace DeepQuant

/-- Exception taxonomy of the source (`expression_tokenizer.py`,
`trigger_system.py`, Python builtins raised by the parsers). -/
inductive PyExc where
  | tokenizeError (msg : String)
  | parseError (msg : String)
  | evaluationError (msg : String)
  | valueError (msg : String)
  | typeError (msg : String)
  | keyError (msg : String)
  | triggerValidationError (msg : String)
  | triggerSystemError (msg : String)
  deriving DecidableEq, Repr

/-- Model of `str(e)`: the message text of an exception (used when a caught
exception is interpolated into a wrapping message). -/
def PyExc.msg : PyExc → String
  | .tokenizeError m => m
  | .parseError m => m
  | .evaluationError m => m
  | .valueError m => m
  | .typeError m => m
  | .keyError m => m
  | .triggerValidationError m => m
  | .triggerSystemError m => m

-- ===== Operators (`expression_tokenizer.py`, enums) =====

/-- Comparison operators (`Operator`). -/
inductive Operator where
  | greaterThan | lessThan | greaterEqual | lessEqual | equal | notEqual
  deriving DecidableEq, Repr

/-- Logical operators (`LogicalOperator`). -/
inductive LogicalOperator where
  | and | or
  deriving DecidableEq, Repr

/-- Mathematical operators (`MathOperator`). -/
inductive MathOperator where
  | add | subtract | multiply | divide
  deriving DecidableEq, Repr

-- ===== Tokens =====

/-- Token kinds, named after the `TOKEN_PATTERNS` entries. -/
inductive TokenType where
  | lparen | rparen | comparisonOp | logicalOp | mathOp | number
  | bracketVar | dotVar | identifier
  deriving DecidableEq, Repr

/-- A token (`Token` dataclass): kind, matched text, source position. -/
structure Token where
  type : TokenType
  value : String
  position : Nat
  deriving DecidableEq, Repr

-- ===== Character classes =====

/-- Model of `[a-zA-Z_]`: first character of an identifier. -/
def isIdentStart (c : Char) : Bool :=
  (('a' ≤ c ∧ c ≤ 'z') ∨ ('A' ≤ c ∧ c ≤ 'Z') ∨ c = '_' : Bool)

/-- ASCII decimal digit (`\d`). -/
def isDigitChar (c : Char) : Bool :=
  ('0' ≤ c ∧ c ≤ '9' : Bool)

/-- Model of `[a-zA-Z0-9_]`: continuation character of an identifier; also the
regex word-character class used by `\b`. -/
def isWordChar (c : Char) : Bool :=
  isIdentStart c || isDigitChar c

/-- Model of `\s`: whitespace discarded by the tokenizer. -/
def isSpaceChar (c : Char) : Bool :=
  (c = ' ' ∨ c = '\t' ∨ c = '\n' ∨ c = '\r' ∨ c = '\x0b' ∨ c = '\x0c' : Bool)

/-- Greedy span of a character class (regex `p*` at the current point):
returns the matched run and the rest. -/
def spanChars (p : Char → Bool) : List Char → List Char × List Char
  | [] => ([], [])
  | c :: cs =>
    if p c then
      let (run, rest) := spanChars p cs
      (c :: run, rest)
    else ([], c :: cs)

/-- Literal-prefix match (one alternative of a regex alternation). -/
def matchLit : List Char → List Char → Option (List Char)
  | [], cs => some cs
  | _, [] => none
  | l :: ls, c :: cs => if l = c then matchLit ls cs else none

-- ===== Pattern matchers =====
-- One function per `TOKEN_PATTERNS` entry, anchored at the current
-- position (`re.match`). Each returns the matched text and the rest.

/-- Model of `[a-zA-Z_][a-zA-Z0-9_]*` (shared shape of identifier pieces). -/
def matchIdent : List Char → Option (List Char × List Char)
  | [] => none
  | c :: cs =>
    if isIdentStart c then
      let (run, rest) := spanChars isWordChar cs
      some (c :: run, rest)
    else none

/-- Model of `NUMBER`: `\d+\.?\d*`. -/
def matchNumber (cs : List Char) : Option (List Char × List Char) :=
  let (d1, rest1) := spanChars isDigitChar cs
  if d1.isEmpty then none
  else
    match rest1 with
    | '.' :: rest2 =>
      let (d2, rest3) := spanChars isDigitChar rest2
      some (d1 ++ '.' :: d2, rest3)
    | _ => some (d1, rest1)

/-- Model of `COMPARISON_OP`: `>=|<=|==|!=|>|<` (alternatives in source order). -/
def matchComparison (cs : List Char) : Option (List Char × List Char) :=
  match matchLit ['>', '='] cs with
  | some rest => some (['>', '='], rest)
  | none =>
  match matchLit ['<', '='] cs with
  | some rest => some (['<', '='], rest)
  | none =>
  match matchLit ['=', '='] cs with
  | some rest => some (['=', '='], rest)
  | none =>
  match matchLit ['!', '='] cs with
  | some rest => some (['!', '='], rest)
  | none =>
  match matchLit ['>'] cs with
  | some rest => some (['>'], rest)
  | none =>
  match matchLit ['<'] cs with
  | some rest => some (['<'], rest)
  | none => none

/-- Model of `LOGICAL_OP`: `\b(and|or)\b`.  `prevIsWord` says whether the
character just before the current position is a word character (for
the left `\b`); the right `\b` requires the next character, if any,
not to be a word character. -/
def matchLogical (prevIsWord : Bool) (cs : List Char) :
    Option (List Char × List Char) :=
  if prevIsWord then none
  else
    match matchLit ['a', 'n', 'd'] cs with
    | some rest =>
      if rest.head?.all (fun c => !isWordChar c) then
        some (['a', 'n', 'd'], rest)
      else none
    | none =>
    match matchLit ['o', 'r'] cs with
    | some rest =>
      if rest.head?.all (fun c => !isWordChar c) then
        some (['o', 'r'], rest)
      else none
    | none => none

/-- Model of `MATH_OP`: `[+\-*/]`. -/
def matchMath : List Char → Option (List Char × List Char)
  | c :: cs =>
    if (c = '+' ∨ c = '-' ∨ c = '*' ∨ c = '/' : Bool) then some ([c], cs)
    else none
  | [] => none

/-- Model of `BRACKET_VAR`: `[a-zA-Z_][a-zA-Z0-9_]*\[[a-zA-Z_][a-zA-Z0-9_]*\]`. -/
def matchBracketVar (cs : List Char) : Option (List Char × List Char) :=
  match matchIdent cs with
  | none => none
  | some (id1, rest1) =>
    match rest1 with
    | '[' :: rest2 =>
      match matchIdent rest2 with
      | none => none
      | some (id2, rest3) =>
        match rest3 with
        | ']' :: rest4 => some (id1 ++ '[' :: id2 ++ [']'], rest4)
        | _ => none
    | _ => none

/-- One suffix of `DOT_VAR`: `\.[a-zA-Z_][a-zA-Z0-9_]*` or `\[\d+\]`. -/
def matchDotSuffix (cs : List Char) : Option (List Char × List Char) :=
  match cs with
  | '.' :: rest =>
    match matchIdent rest with
    | some (id1, rest1) => some ('.' :: id1, rest1)
    | none => none
  | '[' :: rest =>
    let (ds, rest1) := spanChars isDigitChar rest
    if ds.isEmpty then none
    else
      match rest1 with
      | ']' :: rest2 => some ('[' :: ds ++ [']'], rest2)
      | _ => none
  | _ => none

/-- Greedy `(suffix)+` tail of `DOT_VAR` (fuelled; each successful
suffix consumes at least one character). -/
def matchDotSuffixes : Nat → List Char → List Char × List Char
  | 0, cs => ([], cs)
  | fuel + 1, cs =>
    match matchDotSuffix cs with
    | none => ([], cs)
    | some (txt, rest) =>
      let (more, rest') := matchDotSuffixes fuel rest
      (txt ++ more, rest')

/-- Model of `DOT_VAR`:
`[a-zA-Z_][a-zA-Z0-9_]*(\.[a-zA-Z_][a-zA-Z0-9_]*|\[\d+\])+`. -/
def matchDotVar (cs : List Char) : Option (List Char × List Char) :=
  match matchIdent cs with
  | none => none
  | some (id1, rest1) =>
    match matchDotSuffixes rest1.length rest1 with
    | ([], _) => none
    | (sufs, rest2) => some (id1 ++ sufs, rest2)

/-- Model of `WHITESPACE`: `\s+`. -/
def matchWhitespace (cs : List Char) : Option (List Char × List Char) :=
  let (run, rest) := spanChars isSpaceChar cs
  if run.isEmpty then none else some (run, rest)

/-- One step of the tokenizer scan: try the `TOKEN_PATTERNS` in their
fixed priority order at the current position; the first pattern that
matches wins.  Returns the token kind (none for discarded whitespace),
the matched text and the rest of the input. -/
def matchToken (prevIsWord : Bool) (cs : List Char) :
    Option (Option TokenType × List Char × List Char) :=
  match matchLit ['('] cs with
  | some rest => some (some .lparen, ['('], rest)
  | none =>
  match matchLit [')'] cs with
  | some rest => some (some .rparen, [')'], rest)
  | none =>
  match matchComparison cs with
  | some (txt, rest) => some (some .comparisonOp, txt, rest)
  | none =>
  match matchLogical prevIsWord cs with
  | some (txt, rest) => some (some .logicalOp, txt, rest)
  | none =>
  match matchMath cs with
  | some (txt, rest) => some (some .mathOp, txt, rest)
  | none =>
  match matchNumber cs with
  | some (txt, rest) => some (some .number, txt, rest)
  | none =>
  match matchBracketVar cs with
  | some (txt, rest) => some (some .bracketVar, txt, rest)
  | none =>
  match matchDotVar cs with
  | some (txt, rest) => some (some .dotVar, txt, rest)
  | none =>
  match matchIdent cs with
  | some (txt, rest) => some (some .identifier, txt, rest)
  | none =>
  match matchWhitespace cs with
  | some (txt, rest) => some (none, txt, rest)
  | none => none

/-- The tokenizer scan loop (`ExpressionTokenizer.tokenize`), fuelled:
`pos` is the current position, `prevIsWord` the word-character status
of the previous character (for `\b`). -/
def tokenizeGo : Nat → List Char → Nat → Bool → Except PyExc (List Token)
  | _, [], _, _ => .ok []
  | 0, _ :: _, _, _ => .error (.tokenizeError "out of fuel")
  | fuel + 1, c :: cs, pos, prevIsWord =>
    match matchToken prevIsWord (c :: cs) with
    | none =>
      let cstr := String.mk [c]
      .error (.tokenizeError s!"Invalid character at position {pos}: \x27{cstr}\x27")
    | some (kind, txt, rest) =>
      match tokenizeGo fuel rest (pos + txt.length)
        (txt.getLast?.all isWordChar) with
      | .error e => .error e
      | .ok toks =>
        match kind with
        | none => .ok toks
        | some t => .ok (⟨t, String.mk txt, pos⟩ :: toks)

/-- Model of `ExpressionTokenizer.tokenize`: scan left to right, first matching
pattern wins, whitespace discarded; an unmatched character raises
`TokenizeError` with the character and its position. -/
def tokenize (expression : String) : Except PyExc (List Token) :=
  tokenizeGo expression.length expression.toList 0 false

-- ===== Association lists (Python dicts, insertion-ordered) =====

/-- Model of `d.get(key)` / `d[key]`. -/
def lookupA {α : Type} : List (String × α) → String → Option α
  | [], _ => none
  | (k, v) :: rest, key => if k = key then some v else lookupA rest key

/-- Model of `d[key] = v`: update in place if the key exists, append otherwise
(Python dicts keep insertion order). -/
def setAssoc {α : Type} : List (String × α) → String → α → List (String × α)
  | [], key, v => [(key, v)]
  | (k, w) :: rest, key, v =>
    if k = key then (k, v) :: rest else (k, w) :: setAssoc rest key v

/-- Model of `d.pop(key, None)`: drop the entry for `key` if present. -/
def eraseKey {α : Type} : List (String × α) → String → List (String × α)
  | [], _ => []
  | (k, w) :: rest, key =>
    if k = key then rest else (k, w) :: eraseKey rest key

-- ===== AST (`expression_tokenizer.py`, node classes) =====

/-- The AST node set: `NumberNode`, `VariableNode`, `MathNode`,
`ComparisonNode`, `LogicalNode` (`ExpressionNode` hierarchy).  The
Lean constructor `var` stands for `VariableNode`. -/
inductive ExpressionNode where
  | number (value : ℚ)
  | var (name : String)
  | math (left : ExpressionNode) (op : MathOperator) (right : ExpressionNode)
  | comparison (left : ExpressionNode) (op : Operator) (right : ExpressionNode)
  | logical (left : ExpressionNode) (op : LogicalOperator) (right : ExpressionNode)
  deriving DecidableEq, Repr

/-- A value produced by `evaluate`: Python `float` or `bool`. -/
inductive Value where
  | num (x : ℚ)
  | bool (b : Bool)
  deriving DecidableEq, Repr

/-- Python numeric coercion of a `float`/`bool` operand in arithmetic
and comparisons (`True == 1`, `False == 0`). -/
def Value.asNum : Value → ℚ
  | .num x => x
  | .bool b => if b then 1 else 0

/-- Python `bool(...)` of a `float`/`bool` value. -/
def Value.toBool : Value → Bool
  | .num x => decide (x ≠ 0)
  | .bool b => b

/-- The Python object graph a variable path is resolved against:
numbers, objects with attributes, mappings, and sequences. -/
inductive PyObj where
  | num (x : ℚ)
  | obj (attrs : List (String × PyObj))
  | dict (entries : List (String × PyObj))
  | seq (items : List PyObj)

/-- Python `float(...)` of a context value: numbers coerce, objects /
mappings / sequences raise. -/
def PyObj.toFloat : PyObj → Option ℚ
  | .num x => some x
  | _ => none

/-- The flat evaluation context (`Dict[str, Any]`). -/
abbrev Ctx := List (String × PyObj)

-- ===== Variable path splitting (`VariableNode._build_parts`) =====

/-- A path part: a bare name, an integer index (from digit bracket
contents), or a nested part list (Python appends a `list` for every
bracket group: `[int]` for digits, recursively built parts
otherwise). -/
inductive Part where
  | name (s : String)
  | idx (n : Nat)
  | nested (ps : List Part)

/-- Digit run to the natural number it denotes (`int(...)`). -/
def digitsToNat (ds : List Char) : Nat :=
  ds.foldl (fun acc c => acc * 10 + (c.toNat - 48)) 0

/-- The inner bracket scan of `_build_parts`: consume characters,
tracking the bracket nesting count (starting from 1), until the
matching `]` closes the group or the input ends; returns the bracket
content and the input after the closing `]`. -/
def scanBracket : List Char → Nat → List Char × List Char
  | [], _ => ([], [])
  | c :: cs, cnt =>
    let cnt' := if c = '[' then cnt + 1 else if c = ']' then cnt - 1 else cnt
    if cnt' = 0 then ([], cs)
    else (c :: (scanBracket cs cnt').1, (scanBracket cs cnt').2)

/-- The scan loop of `_build_parts`: splits a dotted / bracketed path
into parts; `cur` accumulates the pending bare-name characters.
Digit-only bracket contents become `[int(...)]`; other bracket
contents are recursively split.  The fuel counter only bounds the
recursion (every recursive call strictly shrinks the character list,
so `length + 1` fuel always suffices). -/
def buildPartsGo : Nat → List Char → String → List Part
  | 0, _, _ => []
  | _ + 1, [], cur => if cur = "" then [] else [Part.name cur]
  | fuel + 1, c :: cs', cur =>
    if c = '.' then
      (if cur = "" then [] else [Part.name cur]) ++ buildPartsGo fuel cs' ""
    else if c = '[' then
      let content := (scanBracket cs' 1).1
      let rest := (scanBracket cs' 1).2
      (if cur = "" then [] else [Part.name cur]) ++
        [(if content ≠ [] ∧ content.all isDigitChar then
            Part.nested [Part.idx (digitsToNat content)]
          else
            Part.nested (buildPartsGo fuel content ""))] ++
        buildPartsGo fuel rest ""
    else buildPartsGo fuel cs' (cur.push c)

/-- Model of `VariableNode._build_parts`. -/
def buildParts (name : String) : List Part :=
  buildPartsGo (name.length + 1) name.toList ""

-- ===== Variable path resolution (`_evaluate_path` / `_evaluate_name`) =====

/-- Message of the `EvaluationError` raised when a name step misses:
it names the node's original full path (`self.name`), not the failing
sub-part. -/
def varNotFoundMsg (selfName : String) : String :=
  s!"Variable \x27{selfName}\x27 not found in context"

/-- Message of the `EvaluationError` raised when a flat context value
fails to coerce to float. -/
def convertFailMsg (name : String) : String :=
  s!"Cannot convert variable \x27{name}\x27 to float"

/-- Message of the raw `TypeError` from the unwrapped `float(current)`
of the structural branch of `VariableNode.evaluate`. -/
def floatArgErrMsg : String :=
  "float() argument must be a string or a real number"

/-- Message of the `EvaluationError` raised when an integer index step
misses: it names the failing index. -/
def idxOutOfRangeMsg (n : Nat) : String :=
  let ns := toString n
  s!"Index \x27{ns}\x27 out of range"

/-- The string-name case of `VariableNode._evaluate_name`: reject an
empty name, then attribute lookup (`hasattr`/`getattr`), then mapping
lookup, else an `EvaluationError` naming the node's full path. -/
def evaluateName (selfName : String) (cur : PyObj) (s : String) :
    Except PyExc PyObj :=
  if s = "" then .error (.evaluationError "Variable name cannot be empty")
  else
    match cur with
    | .obj attrs =>
      match lookupA attrs s with
      | some v => .ok v
      | none => .error (.evaluationError (varNotFoundMsg selfName))
    | .dict entries =>
      match lookupA entries s with
      | some v => .ok v
      | none => .error (.evaluationError (varNotFoundMsg selfName))
    | _ => .error (.evaluationError (varNotFoundMsg selfName))

/-- The integer-index case of `_evaluate_name`: sequence indexing
only; a miss names the failing index. -/
def evaluateIdx (cur : PyObj) (n : Nat) : Except PyExc PyObj :=
  match cur with
  | .seq items =>
    if h : n < items.length then .ok (items.get ⟨n, h⟩)
    else .error (.evaluationError (idxOutOfRangeMsg n))
  | _ => .error (.evaluationError (idxOutOfRangeMsg n))

/-- The `for part in parts` loop of `_evaluate_path`: string and
integer parts go through `_evaluate_name`, list parts recurse through
`_evaluate_path` (whose leading empty-check the `.nested` case
inlines). -/
def pathLoop (selfName : String) : PyObj → List Part → Except PyExc PyObj
  | cur, [] => .ok cur
  | cur, p :: rest =>
    match
      (match p with
       | .name s => evaluateName selfName cur s
       | .idx n => evaluateIdx cur n
       | .nested ps =>
         if ps.isEmpty then
           .error (.evaluationError "Variable name cannot be empty")
         else pathLoop selfName cur ps) with
    | .error e => .error e
    | .ok nxt => pathLoop selfName nxt rest

/-- Model of `VariableNode._evaluate_path`: rejects an empty part list, then
resolves the parts one at a time. -/
def evaluatePath (selfName : String) (ctx : PyObj) (parts : List Part) :
    Except PyExc PyObj :=
  if parts.isEmpty then
    .error (.evaluationError "Variable name cannot be empty")
  else pathLoop selfName ctx parts

-- ===== AST evaluation (`evaluate` methods) =====

/-- The `except Exception` wrapping in the node `evaluate` methods:
an `EvaluationError` is re-raised unchanged, any other exception is
wrapped into an `EvaluationError` with a node-specific message. -/
def wrapEvalExc (prefixMsg : String) (e : PyExc) : PyExc :=
  match e with
  | .evaluationError m => .evaluationError m
  | other => .evaluationError (prefixMsg ++ other.msg)

/-- Model of `ExpressionNode.evaluate(context)`, covering all five node
classes.  `VariableNode.evaluate` first tries the exact flat key
(coercing to float), then—if `_build_parts` yields more than one
part—resolves the parts against the object graph reachable from the
context's `strategy` entry (defaulting to an empty dict), and
otherwise raises variable-not-found.  The final `float(current)` of
the structural branch is not wrapped in the node's try block, so a
coercion failure there surfaces as a raw `TypeError`. -/
def ExpressionNode.evaluate : ExpressionNode → Ctx → Except PyExc Value
  | .number v, _ => .ok (.num v)
  | .var name, ctx =>
    match lookupA ctx name with
    | some v =>
      match v.toFloat with
      | some x => .ok (.num x)
      | none => .error (.evaluationError (convertFailMsg name))
    | none =>
      let parts := buildParts name
      if parts.length > 1 then
        match evaluatePath name ((lookupA ctx "strategy").getD (.dict [])) parts with
        | .error e => .error e
        | .ok cur =>
          match cur.toFloat with
          | some x => .ok (.num x)
          | none => .error (.typeError floatArgErrMsg)
      else .error (.evaluationError (varNotFoundMsg name))
  | .math l op r, ctx =>
    match l.evaluate ctx with
    | .error e => .error (wrapEvalExc "Mathematical evaluation failed: " e)
    | .ok lv =>
      match r.evaluate ctx with
      | .error e => .error (wrapEvalExc "Mathematical evaluation failed: " e)
      | .ok rv =>
        match op with
        | .add => .ok (.num (lv.asNum + rv.asNum))
        | .subtract => .ok (.num (lv.asNum - rv.asNum))
        | .multiply => .ok (.num (lv.asNum * rv.asNum))
        | .divide =>
          if rv.asNum = 0 then .error (.evaluationError "Division by zero")
          else .ok (.num (lv.asNum / rv.asNum))
  | .comparison l op r, ctx =>
    match l.evaluate ctx with
    | .error e => .error (wrapEvalExc "Comparison evaluation failed: " e)
    | .ok lv =>
      match r.evaluate ctx with
      | .error e => .error (wrapEvalExc "Comparison evaluation failed: " e)
      | .ok rv =>
        match op with
        | .greaterThan => .ok (.bool (decide (lv.asNum > rv.asNum)))
        | .lessThan => .ok (.bool (decide (lv.asNum < rv.asNum)))
        | .greaterEqual => .ok (.bool (decide (lv.asNum ≥ rv.asNum)))
        | .lessEqual => .ok (.bool (decide (lv.asNum ≤ rv.asNum)))
        | .equal => .ok (.bool (decide (lv.asNum = rv.asNum)))
        | .notEqual => .ok (.bool (decide (lv.asNum ≠ rv.asNum)))
  | .logical l op r, ctx =>
    match l.evaluate ctx with
    | .error e => .error (wrapEvalExc "Logical evaluation failed: " e)
    | .ok lv =>
      match op with
      | .and =>
        if lv.toBool then
          match r.evaluate ctx with
          | .error e => .error (wrapEvalExc "Logical evaluation failed: " e)
          | .ok rv => .ok (.bool rv.toBool)
        else .ok (.bool false)
      | .or =>
        if lv.toBool then .ok (.bool true)
        else
          match r.evaluate ctx with
          | .error e => .error (wrapEvalExc "Logical evaluation failed: " e)
          | .ok rv => .ok (.bool rv.toBool)

-- ===== Parsers (`base_parser.py`, `condition_parser.py`, `expression_parser.py`) =====

/-- Model of `float(...)` of a `NUMBER` token text (`\d+\.?\d*`): exact as a
rational since such literals are finite decimals. (Total function;
only ever applied to `NUMBER`-shaped texts.) -/
def pyFloatOfNumberString (s : String) : ℚ :=
  let cs := s.toList
  let d1 := (spanChars isDigitChar cs).1
  match (spanChars isDigitChar cs).2 with
  | '.' :: rest =>
    (digitsToNat d1 : ℚ) +
      (digitsToNat (spanChars isDigitChar rest).1 : ℚ) /
        (10 : ℚ) ^ (spanChars isDigitChar rest).1.length
  | _ => (digitsToNat d1 : ℚ)

/-- Model of `self._current_token()`: the token at the cursor, if any. -/
def currentToken (toks : List Token) (pos : Nat) : Option Token :=
  toks.get? pos

/-- The `operator_map` of `ConditionParser._parse_comparison_expression`. -/
def compOpOfString (v : String) : Option Operator :=
  if v = ">" then some .greaterThan
  else if v = "<" then some .lessThan
  else if v = ">=" then some .greaterEqual
  else if v = "<=" then some .lessEqual
  else if v = "==" then some .equal
  else if v = "!=" then some .notEqual
  else none

/-- Is the node a `LogicalNode` or `ComparisonNode`?  (The
`isinstance(left, (LogicalNode, ComparisonNode))` test of
`_parse_comparison_expression`.) -/
def isBoolNode : ExpressionNode → Bool
  | .logical _ _ _ => true
  | .comparison _ _ _ => true
  | _ => false

/-- Result of one parsing function: the parsed node and the new cursor. -/
abbrev ParseRes := Except PyExc (ExpressionNode × Nat)

/-- Error raised when the fuel counter runs out; never reached when a
parser entry point supplies its generous fuel bound. -/
def fuelErr : ParseRes := .error (.valueError "parser fuel exhausted")

/-- The shared non-parenthesis cases of `_parse_primary_expression`
(`NUMBER` → `NumberNode(float(...))`; `IDENTIFIER`/`BRACKET_VAR`/
`DOT_VAR` → `VariableNode(...)`, whose constructor rejects an empty
name with `ValueError`; anything else → `ValueError`). -/
def parsePrimaryAtom (toks : List Token) (pos : Nat) : ParseRes :=
  match currentToken toks pos with
  | some t =>
    if t.type = .number then
      .ok (.number (pyFloatOfNumberString t.value), pos + 1)
    else if (t.type = .identifier ∨ t.type = .bracketVar ∨ t.type = .dotVar : Bool) then
      if t.value = "" then .error (.valueError "Variable name cannot be empty")
      else .ok (.var t.value, pos + 1)
    else
      let v := t.value
      .error (.valueError s!"Unexpected token: {v}")
  | none => .error (.valueError "Unexpected token: EOF")

/-- One production of the condition parser's recursive descent
(`ConditionParser` and the `BaseParser` methods it inherits, whose
`self.` dispatch resolves to `ConditionParser._parse_primary_expression`).
The `...Loop` variants are the `while` loops of the left-associative
chains, carrying the accumulated left operand. -/
inductive CondProd where
  | primary
  | parenBool
  | mult
  | multLoop (left : ExpressionNode)
  | add
  | addLoop (left : ExpressionNode)
  | comparison
  | andP
  | andLoop (left : ExpressionNode)
  | orP
  | orLoop (left : ExpressionNode)

/-- The condition parser: one structurally-recursive function over a
fuel counter, dispatching on the production (the source's mutually
recursive methods; the fuel only bounds recursion depth and every
entry point supplies an ample bound).

* `primary` — `ConditionParser._parse_primary_expression`: a
  parenthesized group is first parsed as an arithmetic expression; if
  that attempt raises or does not stop at the matching `)`, the cursor
  is rewound to just after the `(` and the group is re-parsed as a
  boolean (`or`) expression (`parenBool`).  Non-parenthesis primaries
  are numbers and variables.
* `mult`/`multLoop`, `add`/`addLoop` — the arithmetic precedence
  chain of `BaseParser`.
* `comparison` — `_parse_comparison_expression`: exactly one
  comparison operator over arithmetic operands; with no comparison
  operator a boolean node passes through, and a bare arithmetic node
  is a `ValueError` ("Mathematical expression must be part of a
  comparison").
* `andP`/`andLoop`, `orP`/`orLoop` — `_parse_and_expression` /
  `_parse_or_expression`, left-associative. -/
def condStep : Nat → CondProd → List Token → Nat → ParseRes
  | 0, _, _, _ => fuelErr
  | fuel + 1, prod, toks, pos =>
    match prod with
    | .primary =>
      match currentToken toks pos with
      | some t =>
        if t.type = .lparen then
          match condStep fuel .add toks (pos + 1) with
          | .ok (res, pos1) =>
            match currentToken toks pos1 with
            | some t2 =>
              if t2.type = .rparen then .ok (res, pos1 + 1)
              else condStep fuel .parenBool toks (pos + 1)
            | none => condStep fuel .parenBool toks (pos + 1)
          | .error _ => condStep fuel .parenBool toks (pos + 1)
        else parsePrimaryAtom toks pos
      | none => parsePrimaryAtom toks pos
    | .parenBool =>
      match condStep fuel .orP toks pos with
      | .error e => .error e
      | .ok (res, pos1) =>
        match currentToken toks pos1 with
        | some t2 =>
          if t2.type = .rparen then .ok (res, pos1 + 1)
          else .error (.valueError "Missing closing parenthesis")
        | none => .error (.valueError "Missing closing parenthesis")
    | .mult =>
      match condStep fuel .primary toks pos with
      | .error e => .error e
      | .ok (left, pos1) => condStep fuel (.multLoop left) toks pos1
    | .multLoop left =>
      match currentToken toks pos with
      | some t =>
        if (t.value = "*" ∨ t.value = "/" : Bool) then
          match condStep fuel .primary toks (pos + 1) with
          | .error e => .error e
          | .ok (right, pos2) =>
            condStep fuel
              (.multLoop (.math left (if t.value = "*" then .multiply else .divide) right))
              toks pos2
        else .ok (left, pos)
      | none => .ok (left, pos)
    | .add =>
      match condStep fuel .mult toks pos with
      | .error e => .error e
      | .ok (left, pos1) => condStep fuel (.addLoop left) toks pos1
    | .addLoop left =>
      match currentToken toks pos with
      | some t =>
        if (t.value = "+" ∨ t.value = "-" : Bool) then
          match condStep fuel .mult toks (pos + 1) with
          | .error e => .error e
          | .ok (right, pos2) =>
            condStep fuel
              (.addLoop (.math left (if t.value = "+" then .add else .subtract) right))
              toks pos2
        else .ok (left, pos)
      | none => .ok (left, pos)
    | .comparison =>
      match condStep fuel .add toks pos with
      | .error e => .error e
      | .ok (left, pos1) =>
        match currentToken toks pos1 with
        | some t =>
          if t.type = .comparisonOp then
            match condStep fuel .add toks (pos1 + 1) with
            | .error e => .error e
            | .ok (right, pos2) =>
              match compOpOfString t.value with
              | some op => .ok (.comparison left op right, pos2)
              | none =>
                let v := t.value
                .error (.keyError v)
          else if isBoolNode left then .ok (left, pos1)
          else .error (.valueError "Mathematical expression must be part of a comparison")
        | none =>
          if isBoolNode left then .ok (left, pos1)
          else .error (.valueError "Mathematical expression must be part of a comparison")
    | .andP =>
      match condStep fuel .comparison toks pos with
      | .error e => .error e
      | .ok (left, pos1) => condStep fuel (.andLoop left) toks pos1
    | .andLoop left =>
      match currentToken toks pos with
      | some t =>
        if t.value = "and" then
          match condStep fuel .comparison toks (pos + 1) with
          | .error e => .error e
          | .ok (right, pos2) =>
            condStep fuel (.andLoop (.logical left .and right)) toks pos2
        else .ok (left, pos)
      | none => .ok (left, pos)
    | .orP =>
      match condStep fuel .andP toks pos with
      | .error e => .error e
      | .ok (left, pos1) => condStep fuel (.orLoop left) toks pos1
    | .orLoop left =>
      match currentToken toks pos with
      | some t =>
        if t.value = "or" then
          match condStep fuel .andP toks (pos + 1) with
          | .error e => .error e
          | .ok (right, pos2) =>
            condStep fuel (.orLoop (.logical left .or right)) toks pos2
        else .ok (left, pos)
      | none => .ok (left, pos)

/-- Model of `ConditionParser._parse_primary_expression`. -/
def condPrimary (fuel : Nat) (toks : List Token) (pos : Nat) : ParseRes :=
  condStep fuel .primary toks pos

/-- The backtracked boolean re-parse of a parenthesized group. -/
def condParenBool (fuel : Nat) (toks : List Token) (savedPos : Nat) : ParseRes :=
  condStep fuel .parenBool toks savedPos

/-- Model of `_parse_additive_expression` (ConditionParser dispatch). -/
def condAdditive (fuel : Nat) (toks : List Token) (pos : Nat) : ParseRes :=
  condStep fuel .add toks pos

/-- Model of `ConditionParser._parse_comparison_expression`. -/
def condComparison (fuel : Nat) (toks : List Token) (pos : Nat) : ParseRes :=
  condStep fuel .comparison toks pos

/-- Model of `_parse_and_expression`. -/
def condAnd (fuel : Nat) (toks : List Token) (pos : Nat) : ParseRes :=
  condStep fuel .andP toks pos

/-- Model of `_parse_or_expression`. -/
def condOr (fuel : Nat) (toks : List Token) (pos : Nat) : ParseRes :=
  condStep fuel .orP toks pos

/-- Model of `ConditionParser.parse`: a full boolean condition, rejecting
unconsumed trailing tokens. -/
def conditionParse (fuel : Nat) (toks : List Token) : Except PyExc ExpressionNode :=
  match condOr fuel toks 0 with
  | .error e => .error e
  | .ok (result, pos) =>
    if pos < toks.length then
      match currentToken toks pos with
      | some t =>
        let v := t.value
        .error (.valueError s!"Unexpected token: {v}")
      | none => .error (.valueError "Unexpected token: EOF")
    else .ok result

/-- Fuel bound supplied by the parser entry points: comfortably larger
than the maximum call depth any token list can force. -/
def parseFuel (toks : List Token) : Nat :=
  8 * (toks.length + 1)

-- ===== Evaluator with AST cache (`base_evaluator.py`, `condition_evaluator.py`) =====

/-- Model of `BaseEvaluator` state: the expression cache (an insertion-ordered
dict from source string to AST) and its capacity (default 1000). -/
structure EvaluatorState where
  cache : List (String × ExpressionNode)
  cacheSize : Nat := 1000
  deriving DecidableEq, Repr

/-- A fresh evaluator (`ConditionEvaluator()`). -/
def EvaluatorState.init : EvaluatorState :=
  { cache := [] }

/-- Model of `BaseEvaluator._manage_cache`: when the cache has reached its
capacity, drop the oldest entry (`next(iter(...))` — the head of the
insertion order), then store the new AST.  (Defined for the
configured positive capacities; the source would raise
`StopIteration` on an empty full cache, only possible with capacity
0.) -/
def manageCache (ev : EvaluatorState) (expressionStr : String)
    (ast : ExpressionNode) : EvaluatorState :=
  let cache1 :=
    if ev.cache.length ≥ ev.cacheSize then
      match ev.cache with
      | [] => []
      | _ :: t => t
    else ev.cache
  { ev with cache := setAssoc cache1 expressionStr ast }

/-- Model of `BaseEvaluator._get_from_cache` (AST objects are always truthy, so
the caller's `if cached_ast:` treats every stored entry as a hit). -/
def getFromCache (ev : EvaluatorState) (expressionStr : String) :
    Option ExpressionNode :=
  lookupA ev.cache expressionStr

/-- Python `str.strip()`: drop leading and trailing whitespace. -/
def pyStrip (s : String) : String :=
  String.mk (((spanChars isSpaceChar s.toList).2.reverse.dropWhile isSpaceChar).reverse)

/-- Model of `BaseEvaluator._validate_expression_string`: a string empty after
stripping is rejected with `ParseError`. -/
def validateExpressionString (s : String) : Option PyExc :=
  if pyStrip s = "" then some (.parseError "Expression string cannot be empty")
  else none

/-- The `ParseError` message `parse_expression` wraps failures in. -/
def parseFailMsg (conditionStr : String) (e : PyExc) : String :=
  let m := e.msg
  s!"Failed to parse condition \x27{conditionStr}\x27: {m}"

/-- Model of `ConditionEvaluator.parse_expression`: validate, consult the
cache, else tokenize and parse, store in the cache, and wrap any
failure into a `ParseError` naming the condition. -/
def parseExpression (ev : EvaluatorState) (conditionStr : String) :
    Except PyExc (ExpressionNode × EvaluatorState) :=
  match validateExpressionString conditionStr with
  | some e => .error e
  | none =>
    match getFromCache ev conditionStr with
    | some ast => .ok (ast, ev)
    | none =>
      match
        ((match tokenize conditionStr with
          | .error e => .error e
          | .ok toks => conditionParse (parseFuel toks) toks) :
          Except PyExc ExpressionNode) with
      | .ok ast => .ok (ast, manageCache ev conditionStr ast)
      | .error e => .error (.parseError (parseFailMsg conditionStr e))

/-- The `EvaluationError` message `ConditionEvaluator.evaluate` wraps
failures in. -/
def condEvalFailMsg (e : PyExc) : String :=
  let m := e.msg
  s!"Condition evaluation failed: {m}"

/-- Model of `ConditionEvaluator.evaluate` on a string condition: parse (with
caching), evaluate the AST against the context, coerce the result
with `bool(...)`; any failure is wrapped into an `EvaluationError`. -/
def conditionEvaluate (ev : EvaluatorState) (condition : String) (ctx : Ctx) :
    Except PyExc (Bool × EvaluatorState) :=
  match parseExpression ev condition with
  | .error e => .error (.evaluationError (condEvalFailMsg e))
  | .ok (ast, ev') =>
    match ast.evaluate ctx with
    | .error e => .error (.evaluationError (condEvalFailMsg e))
    | .ok v => .ok (v.toBool, ev')

-- ===== Trigger model and registry (`trigger_system.py`) =====

/-- Model of `TriggerAction` (name, type, parameter map).  The `__post_init__`
validation (non-empty name, dict parameters) happens at construction
in the source; values of this structure model already-constructed
actions. -/
structure TriggerAction where
  name : String
  type : String
  parameters : List (String × String)
  deriving DecidableEq, Repr

/-- Model of `Trigger` (unique name, condition string, ordered actions, enabled
flag).  String conditions only: callable conditions never flow through
the parsing/validation paths the verified claims are about. -/
structure Trigger where
  name : String
  condition : String
  actions : List TriggerAction
  enabled : Bool := true
  deriving DecidableEq, Repr

/-- Model of `TriggerSystem` state: the insertion-ordered trigger dict, the
condition evaluator it validates against, and the trigger capacity
(default 100). -/
structure TriggerSystem where
  triggers : List (String × Trigger)
  conditionEvaluator : EvaluatorState
  maxTriggers : Nat := 100
  deriving DecidableEq, Repr

/-- A fresh registry (`TriggerSystem()`). -/
def TriggerSystem.init : TriggerSystem :=
  { triggers := [], conditionEvaluator := EvaluatorState.init }

/-- The `TriggerSystemError` message for a full registry. -/
def maxTriggersMsg (maxTriggers : Nat) : String :=
  let mx := toString maxTriggers
  s!"Maximum number of triggers ({mx}) exceeded"

/-- The `TriggerValidationError` message for a duplicate name. -/
def dupTriggerMsg (name : String) : String :=
  s!"Trigger with name \x27{name}\x27 already exists"

/-- The `TriggerValidationError` message for an unparseable condition. -/
def invalidCondMsg (name m : String) : String :=
  s!"Invalid condition syntax in trigger \x27{name}\x27: {m}"

/-- Model of `TriggerSystem.add_trigger`, in mutation style: the raised
exception (if any) together with the registry state after the call.
Capacity overflow raises `TriggerSystemError`; a duplicate name raises
`TriggerValidationError`; a condition whose parse raises `ParseError`
is re-raised as `TriggerValidationError` — all before the trigger is
stored, and a failed parse does not touch the evaluator cache.  (The
`isinstance(trigger, Trigger)` guard is enforced by typing here.) -/
def addTrigger (sys : TriggerSystem) (trigger : Trigger) :
    Option PyExc × TriggerSystem :=
  if sys.triggers.length ≥ sys.maxTriggers then
    (some (.triggerSystemError (maxTriggersMsg sys.maxTriggers)), sys)
  else if (lookupA sys.triggers trigger.name).isSome then
    (some (.triggerValidationError (dupTriggerMsg trigger.name)), sys)
  else
    match parseExpression sys.conditionEvaluator trigger.condition with
    | .error e =>
      match e with
      | .parseError m =>
        (some (.triggerValidationError (invalidCondMsg trigger.name m)), sys)
      | other => (some other, sys)
    | .ok (_, ev') =>
      (none, { sys with
        triggers := sys.triggers ++ [(trigger.name, trigger)],
        conditionEvaluator := ev' })

-- ===== Execution engine (`base.py`, `BaseStrategy`) =====

/-- Outcome of one `execute_action` call against the external broker:
an order was created and returned (`ok handle`), `_create_order`
declined and returned `None` (insufficient cash / no position to
close), or the call raised `OrderExecutionError`. -/
inductive SubmitOutcome where
  | ok (handle : Nat)
  | refused
  | raised
  deriving DecidableEq, Repr

/-- Outcome of evaluating one condition against the current bar's
context: a boolean, or an evaluation exception (which
`test_condition` logs and converts to `False`). -/
inductive CondOutcome where
  | ok (b : Bool)
  | exc
  deriving DecidableEq, Repr

/-- The engine's runtime execution state: the registry it iterates,
`trigger_orders` (per trigger, per action, the tracked order handle),
`pending_actions` (per trigger, the queued action names),
`active_triggers`, and the `executed_triggers` log (names only; the
source also records dates, which come from the external data feed). -/
structure BaseStrategyState where
  triggerSystem : TriggerSystem
  triggerOrders : List (String × List (String × Option Nat))
  pendingActions : List (String × List String)
  activeTriggers : List String
  executedTriggers : List String
  deriving DecidableEq, Repr

/-- Model of `BaseStrategy._track_order`. -/
def trackOrder (s : BaseStrategyState) (triggerName actionName : String)
    (handle : Nat) : BaseStrategyState :=
  let inner := (lookupA s.triggerOrders triggerName).getD []
  { s with triggerOrders :=
      setAssoc s.triggerOrders triggerName (setAssoc inner actionName (some handle)) }

/-- The inner loop of `_find_order_trigger`: the first action of this
trigger whose tracked order is the notified one. -/
def findActionForOrder (inner : List (String × Option Nat)) (handle : Nat) :
    Option String :=
  match inner with
  | [] => none
  | (an, o) :: rest =>
    if o = some handle then some an else findActionForOrder rest handle

/-- Model of `BaseStrategy._find_order_trigger`: scan the tracked orders in
insertion order for the notified order. -/
def findOrderTrigger (orders : List (String × List (String × Option Nat)))
    (handle : Nat) : Option (String × String) :=
  match orders with
  | [] => none
  | (tn, inner) :: rest =>
    match findActionForOrder inner handle with
    | some an => some (tn, an)
    | none => findOrderTrigger rest handle

/-- Model of `BaseStrategy.execute_trigger_actions`: mark the trigger active
and log it, submit the first action (tracking its order handle when
one is returned), then queue the remaining action names.  When the
submission raises, the exception aborts the method before the queueing
step and is caught by the per-trigger handler in `next()`. -/
def executeTriggerActions (s : BaseStrategyState) (trigger : Trigger)
    (firstSubmit : SubmitOutcome) : BaseStrategyState :=
  let s1 := { s with
    activeTriggers :=
      if trigger.name ∈ s.activeTriggers then s.activeTriggers
      else s.activeTriggers ++ [trigger.name],
    executedTriggers := s.executedTriggers ++ [trigger.name] }
  match trigger.actions with
  | [] => s1
  | firstAction :: rest =>
    match firstSubmit with
    | .raised => s1
    | .refused =>
      if rest.isEmpty then s1
      else { s1 with pendingActions :=
               setAssoc s1.pendingActions trigger.name (rest.map TriggerAction.name) }
    | .ok h =>
      let s2 := trackOrder s1 trigger.name firstAction.name h
      if rest.isEmpty then s2
      else { s2 with pendingActions :=
               setAssoc s2.pendingActions trigger.name (rest.map TriggerAction.name) }

/-- Model of `BaseStrategy._process_next_action`: clear the completed action's
handle, then pop and submit the next queued action if any (`raised`
submissions leave the mutations made so far in place — the exception
propagates out of `notify_order`); with an empty queue the trigger
is discarded from the active set. -/
def processNextAction (s : BaseStrategyState) (triggerName completedAction : String)
    (nextSubmit : SubmitOutcome) : BaseStrategyState :=
  let s1 :=
    match lookupA s.triggerOrders triggerName with
    | some inner =>
      if (lookupA inner completedAction).isSome then
        { s with triggerOrders :=
            setAssoc s.triggerOrders triggerName (setAssoc inner completedAction none) }
      else s
    | none => s
  match lookupA s1.pendingActions triggerName with
  | some (nextActionName :: restQueue) =>
    let s2 := { s1 with pendingActions :=
                  setAssoc s1.pendingActions triggerName restQueue }
    match lookupA s2.triggerSystem.triggers triggerName with
    | none => s2
    | some trigger =>
      match trigger.actions.find? (fun a => a.name = nextActionName) with
      | none => s2
      | some nextAction =>
        match nextSubmit with
        | .ok h => trackOrder s2 triggerName nextAction.name h
        | .refused => s2
        | .raised => s2
  | _ => { s1 with activeTriggers := s1.activeTriggers.erase triggerName }

/-- Model of `BaseStrategy._cleanup_failed_trigger`: drop the pending queue,
discard the trigger from the active set, and clear every recorded
order handle of the trigger. -/
def cleanupFailedTrigger (s : BaseStrategyState) (triggerName : String) :
    BaseStrategyState :=
  let s1 := { s with
    pendingActions := eraseKey s.pendingActions triggerName,
    activeTriggers := s.activeTriggers.erase triggerName }
  match lookupA s1.triggerOrders triggerName with
  | some inner =>
    let cleared := inner.map (fun p => (p.1, (none : Option Nat)))
    { s1 with triggerOrders := setAssoc s1.triggerOrders triggerName cleared }
  | none => s1

/-- Model of `BaseStrategy._handle_completed_order` (the notified order resolved
to its handle; untracked orders are ignored). -/
def handleCompletedOrder (s : BaseStrategyState) (handle : Nat)
    (nextSubmit : SubmitOutcome) : BaseStrategyState :=
  match findOrderTrigger s.triggerOrders handle with
  | some (tn, an) => processNextAction s tn an nextSubmit
  | none => s

/-- Model of `BaseStrategy._handle_failed_order`. -/
def handleFailedOrder (s : BaseStrategyState) (handle : Nat) : BaseStrategyState :=
  match findOrderTrigger s.triggerOrders handle with
  | some (tn, _) => cleanupFailedTrigger s tn
  | none => s

/-- Model of `bt.Order` statuses dispatched by `notify_order`. -/
inductive OrderStatus where
  | submitted | accepted | completed | canceled | margin | rejected | expired
  deriving DecidableEq, Repr

/-- Model of `BaseStrategy.notify_order`: submitted/accepted are ignored,
completed goes to `_handle_completed_order`, the four failure statuses
go to `_handle_failed_order`. -/
def notifyOrder (s : BaseStrategyState) (status : OrderStatus) (handle : Nat)
    (nextSubmit : SubmitOutcome) : BaseStrategyState :=
  match status with
  | .submitted => s
  | .accepted => s
  | .completed => handleCompletedOrder s handle nextSubmit
  | .canceled => handleFailedOrder s handle
  | .margin => handleFailedOrder s handle
  | .rejected => handleFailedOrder s handle
  | .expired => handleFailedOrder s handle

/-- Result of one `next()` call: the state afterwards, the names of
the triggers whose condition was evaluated this bar, and the names of
the triggers that fired. -/
structure BarResult where
  state : BaseStrategyState
  evaluated : List String
  fired : List String
  deriving DecidableEq, Repr

/-- The `for trigger_name, trigger in ...` loop of
`BaseStrategy.next()`.  `conds` gives each condition string's
evaluation outcome against this bar's context (`test_condition`
converts an evaluation exception to `False` after logging it);
`submits` gives the broker outcome of submitting a fired trigger's
first action.  Exceptions from `execute_trigger_actions` are caught by
the per-trigger handler, so the loop always continues with the next
trigger. -/
def nextBarGo (conds : String → CondOutcome) (submits : String → SubmitOutcome) :
    List (String × Trigger) → BaseStrategyState → List String → List String →
    BarResult
  | [], s, ev, fi => ⟨s, ev, fi⟩
  | (_, trigger) :: rest, s, ev, fi =>
    if !trigger.enabled then nextBarGo conds submits rest s ev fi
    else if trigger.name ∈ s.activeTriggers then nextBarGo conds submits rest s ev fi
    else
      let fires :=
        match conds trigger.condition with
        | .ok b => b
        | .exc => false
      if fires then
        nextBarGo conds submits rest
          (executeTriggerActions s trigger (submits trigger.name))
          (ev ++ [trigger.name]) (fi ++ [trigger.name])
      else nextBarGo conds submits rest s (ev ++ [trigger.name]) fi

/-- Model of `BaseStrategy.next()`: one bar. -/
def nextBar (s : BaseStrategyState) (conds : String → CondOutcome)
    (submits : String → SubmitOutcome) : BarResult :=
  nextBarGo conds submits s.triggerSystem.triggers s [] []

/-- One call made by the external engine into this core: a per-bar
evaluation, or an order notification. -/
inductive EngineEvent where
  | bar (conds : String → CondOutcome) (submits : String → SubmitOutcome)
  | notify (status : OrderStatus) (handle : Nat) (nextSubmit : SubmitOutcome)

/-- Execute one engine entry point. -/
def engineStep (s : BaseStrategyState) : EngineEvent → BaseStrategyState
  | .bar conds submits => (nextBar s conds submits).state
  | .notify status handle nextSubmit => notifyOrder s status handle nextSubmit

/-- Execute a sequence of engine entry points. -/
def runEvents (s : BaseStrategyState) (events : List EngineEvent) :
    BaseStrategyState :=
  events.foldl engineStep s

deriving instance DecidableEq for Except

-- ===== Association-list lemmas =====

theorem lookupA_setAssoc_self {α : Type} (l : List (String × α)) (k : String) (v : α) :
    lookupA (setAssoc l k v) k = some v := by
  induction l with
  | nil => simp [setAssoc, lookupA]
  | cons p rest ih =>
    by_cases h : p.1 = k
    · simp [setAssoc, lookupA, h]
    · simp [setAssoc, lookupA, h, ih]

theorem lookupA_setAssoc_ne {α : Type} (l : List (String × α)) (k k' : String) (v : α)
    (h : k ≠ k') : lookupA (setAssoc l k v) k' = lookupA l k' := by
  induction l with
  | nil => simp [setAssoc, lookupA, h]
  | cons p rest ih =>
    by_cases hp : p.1 = k
    · simp [setAssoc, lookupA, hp, h]
    · simp [setAssoc, lookupA, hp, ih]

theorem setAssoc_of_lookupA_none {α : Type} (l : List (String × α)) (k : String) (v : α)
    (h : lookupA l k = none) : setAssoc l k v = l ++ [(k, v)] := by
  induction l with
  | nil => simp [setAssoc]
  | cons p rest ih =>
    simp only [lookupA] at h
    by_cases hp : p.1 = k
    · simp [hp] at h
    · simp only [setAssoc, hp, if_false, List.cons_append, List.cons.injEq, true_and]
      exact ih (by simpa [hp] using h)

theorem lookupA_append {α : Type} (l1 l2 : List (String × α)) (k : String) :
    lookupA (l1 ++ l2) k =
      match lookupA l1 k with
      | some v => some v
      | none => lookupA l2 k := by
  induction l1 with
  | nil => simp [lookupA]
  | cons p rest ih =>
    by_cases hp : p.1 = k
    · simp [lookupA, hp]
    · simp [lookupA, hp, ih]

theorem lookupA_eq_none_iff {α : Type} (l : List (String × α)) (k : String) :
    lookupA l k = none ↔ k ∉ l.map Prod.fst := by
  induction l with
  | nil => simp [lookupA]
  | cons p rest ih =>
    by_cases hp : p.1 = k
    · simp [lookupA, hp]
    · simp [lookupA, hp, ih, Ne.symm hp]

theorem length_setAssoc_of_lookupA_none {α : Type} (l : List (String × α)) (k : String)
    (v : α) (h : lookupA l k = none) :
    (setAssoc l k v).length = l.length + 1 := by
  rw [setAssoc_of_lookupA_none l k v h]
  simp

theorem lookupA_eraseKey_self {α : Type} (l : List (String × α)) (k : String)
    (hnd : (l.map Prod.fst).Nodup) : lookupA (eraseKey l k) k = none := by
  induction l with
  | nil => simp [eraseKey, lookupA]
  | cons p rest ih =>
    simp only [List.map_cons, List.nodup_cons] at hnd
    by_cases hp : p.1 = k
    · simp only [eraseKey, hp, if_true]
      rw [lookupA_eq_none_iff]
      rw [hp] at hnd
      exact hnd.1
    · simp [eraseKey, lookupA, hp, ih hnd.2]

-- ===== C4: logical short-circuit =====

/-- C4: `Logical(AND)` evaluates its left operand first and, when that
value is falsy, returns `False` without evaluating the right operand
(for every right operand, even one whose evaluation would raise);
`Logical(OR)` mirrors this, returning `True` when the left value is
truthy.  Concretely, `"a > 10 and b > 10"` in a context holding only
`a = 1` evaluates to `False`, and `"a > 10 or b > 10"` with only
`a = 11` evaluates to `True`, neither raising although `b` is absent
from the context. -/
theorem logical_evaluation_short_circuits :
    (∀ (l r : ExpressionNode) (ctx : Ctx) (v : Value),
        l.evaluate ctx = .ok v → v.toBool = false →
        (ExpressionNode.logical l .and r).evaluate ctx = .ok (.bool false)) ∧
    (∀ (l r : ExpressionNode) (ctx : Ctx) (v : Value),
        l.evaluate ctx = .ok v → v.toBool = true →
        (ExpressionNode.logical l .or r).evaluate ctx = .ok (.bool true)) ∧
    (conditionEvaluate EvaluatorState.init "a > 10 and b > 10"
        [("a", PyObj.num 1)]).map Prod.fst = .ok false ∧
    (conditionEvaluate EvaluatorState.init "a > 10 or b > 10"
        [("a", PyObj.num 11)]).map Prod.fst = .ok true := by
  refine ⟨?_, ?_, by decide, by decide⟩
  · intro l r ctx v h hv
    simp [ExpressionNode.evaluate, h, hv]
  · intro l r ctx v h hv
    simp [ExpressionNode.evaluate, h, hv]

/-- Witness for C4 at a concrete input: the left conjunct applied to
`a > 10` (false in `{a: 1}`) conjoined with a right operand whose own
evaluation raises (`b` is absent). -/
theorem logical_evaluation_short_circuits_witness :
    (ExpressionNode.logical
      (.comparison (.var "a") .greaterThan (.number 10)) .and
      (.comparison (.var "b") .greaterThan (.number 10))).evaluate
        [("a", PyObj.num 1)] = .ok (.bool false) ∧
    (ExpressionNode.comparison (.var "b") .greaterThan (.number 10)).evaluate
        [("a", PyObj.num 1)] =
      .error (.evaluationError (varNotFoundMsg "b")) :=
  ⟨logical_evaluation_short_circuits.1
      (.comparison (.var "a") .greaterThan (.number 10))
      (.comparison (.var "b") .greaterThan (.number 10))
      [("a", PyObj.num 1)] (.bool false) (by decide) (by decide),
   by decide⟩

-- ===== C10: a rejected registration never partially registers =====

theorem addTrigger_error_fixes_state (sys : TriggerSystem) (tr : Trigger) :
    (addTrigger sys tr).2 = sys ∨ (addTrigger sys tr).1 = none := by
  unfold addTrigger
  by_cases h1 : sys.triggers.length ≥ sys.maxTriggers
  · simp [h1]
  · by_cases h2 : (lookupA sys.triggers tr.name).isSome
    · simp [h1, h2]
    · cases hp : parseExpression sys.conditionEvaluator tr.condition with
      | error e => cases e <;> simp [h1, h2, hp]
      | ok pr => simp [h1, h2, hp]

/-- C10: whenever `add_trigger` raises (capacity exceeded, duplicate
name, or condition parse failure — the non-`Trigger`-argument case is
unrepresentable in the typed model), the registry's trigger map after
the call is exactly what it was before: a rejected registration never
partially registers a trigger. -/
theorem addTrigger_raise_leaves_triggers_unchanged :
    ∀ (sys : TriggerSystem) (tr : Trigger) (e : PyExc),
      (addTrigger sys tr).1 = some e →
      (addTrigger sys tr).2.triggers = sys.triggers := by
  intro sys tr e h
  rcases addTrigger_error_fixes_state sys tr with hfix | hnone
  · rw [hfix]
  · rw [hnone] at h
    exact absurd h (by simp)

/-- Witness for C10: a duplicate-name rejection at a concrete
registry. -/
theorem addTrigger_raise_leaves_triggers_unchanged_witness :
    (addTrigger
      { triggers := [("t", { name := "t", condition := "close > 100",
                             actions := [{ name := "buy", type := "TradeAction",
                                           parameters := [] }] })],
        conditionEvaluator := EvaluatorState.init }
      { name := "t", condition := "close < 5",
        actions := [{ name := "sell", type := "TradeAction", parameters := [] }] }).1 =
      some (.triggerValidationError (dupTriggerMsg "t")) ∧
    (addTrigger
      { triggers := [("t", { name := "t", condition := "close > 100",
                             actions := [{ name := "buy", type := "TradeAction",
                                           parameters := [] }] })],
        conditionEvaluator := EvaluatorState.init }
      { name := "t", condition := "close < 5",
        actions := [{ name := "sell", type := "TradeAction", parameters := [] }] }).2.triggers =
      [("t", { name := "t", condition := "close > 100",
               actions := [{ name := "buy", type := "TradeAction",
                             parameters := [] }] })] :=
  ⟨by decide,
   addTrigger_raise_leaves_triggers_unchanged _ _
     (.triggerValidationError (dupTriggerMsg "t")) (by decide)⟩

-- ===== C7: duplicate names and syntax errors rejected at registration =====

theorem parseExpression_close_gt_fails (ev : EvaluatorState)
    (hc : getFromCache ev "close >" = none) :
    parseExpression ev "close >" =
      .error (.parseError (parseFailMsg "close >" (.valueError "Unexpected token: EOF"))) := by
  unfold parseExpression
  rw [show validateExpressionString "close >" = none from by decide]
  rw [hc]
  rw [show ((match tokenize "close >" with
      | .error e0 => .error e0
      | .ok toks => conditionParse (parseFuel toks) toks) :
      Except PyExc ExpressionNode) =
    .error (.valueError "Unexpected token: EOF") from by decide]

/-- C7: for a registry below its trigger capacity, `add_trigger`
raises `TriggerValidationError` on a duplicate trigger name; and
`add_trigger` of a trigger whose condition is the unparseable
`"close >"` raises `TriggerValidationError` during the `add_trigger`
call itself — the syntax error surfaces at registration, before any
bar is evaluated (the per-bar loop is never involved). -/
theorem addTrigger_rejects_duplicates_and_syntax_errors :
    (∀ (sys : TriggerSystem) (tr : Trigger),
        sys.triggers.length < sys.maxTriggers →
        (lookupA sys.triggers tr.name).isSome →
        (addTrigger sys tr).1 =
          some (.triggerValidationError (dupTriggerMsg tr.name))) ∧
    (∀ (sys : TriggerSystem) (tr : Trigger),
        sys.triggers.length < sys.maxTriggers →
        lookupA sys.triggers tr.name = none →
        tr.condition = "close >" →
        getFromCache sys.conditionEvaluator "close >" = none →
        (addTrigger sys tr).1 =
          some (.triggerValidationError (invalidCondMsg tr.name
            (parseFailMsg "close >" (.valueError "Unexpected token: EOF"))))) := by
  constructor
  · intro sys tr hcap hdup
    unfold addTrigger
    simp [Nat.not_le.mpr hcap, hdup]
  · intro sys tr hcap hdup hcond hcache
    unfold addTrigger
    rw [hcond]
    have hp := parseExpression_close_gt_fails sys.conditionEvaluator hcache
    simp [Nat.not_le.mpr hcap, hdup, hp]

/-- Witness for C7 at concrete registries: a duplicate name on a
one-trigger registry, and `"close >"` on a fresh registry. -/
theorem addTrigger_rejects_duplicates_and_syntax_errors_witness :
    (addTrigger
      { triggers := [("t", { name := "t", condition := "close > 100",
                             actions := [{ name := "buy", type := "TradeAction",
                                           parameters := [] }] })],
        conditionEvaluator := EvaluatorState.init }
      { name := "t", condition := "close < 5",
        actions := [{ name := "sell", type := "TradeAction", parameters := [] }] }).1 =
      some (.triggerValidationError (dupTriggerMsg "t")) ∧
    (addTrigger TriggerSystem.init
      { name := "bad", condition := "close >",
        actions := [{ name := "buy", type := "TradeAction", parameters := [] }] }).1 =
      some (.triggerValidationError (invalidCondMsg "bad"
        (parseFailMsg "close >" (.valueError "Unexpected token: EOF")))) :=
  ⟨addTrigger_rejects_duplicates_and_syntax_errors.1 _ _ (by decide) (by decide),
   addTrigger_rejects_duplicates_and_syntax_errors.2 _ _ (by decide) (by decide)
     (by decide) (by decide)⟩

-- ===== C8: bare arithmetic and chained comparisons rejected =====

theorem condStep_bool (fuel : Nat) :
    ∀ (toks : List Token) (pos : Nat) (node : ExpressionNode) (p1 : Nat),
      (condStep fuel .comparison toks pos = .ok (node, p1) → isBoolNode node = true) ∧
      (∀ left, isBoolNode left = true →
        condStep fuel (.andLoop left) toks pos = .ok (node, p1) →
        isBoolNode node = true) ∧
      (condStep fuel .andP toks pos = .ok (node, p1) → isBoolNode node = true) ∧
      (∀ left, isBoolNode left = true →
        condStep fuel (.orLoop left) toks pos = .ok (node, p1) →
        isBoolNode node = true) ∧
      (condStep fuel .orP toks pos = .ok (node, p1) → isBoolNode node = true) := by
  induction fuel with
  | zero => intro toks pos node p1; simp [condStep, fuelErr]
  | succ fuel ih =>
    intro toks pos node p1
    refine ⟨?_, ?_, ?_, ?_, ?_⟩
    · intro h
      simp only [condStep] at h
      split at h
      · exact absurd h (by simp)
      · split at h
        · split at h
          · split at h
            · exact absurd h (by simp)
            · split at h
              · cases h; simp [isBoolNode]
              · exact absurd h (by simp)
          · split at h
            · rename_i hb
              cases h
              exact hb
            · exact absurd h (by simp)
        · split at h
          · rename_i hb
            cases h
            exact hb
          · exact absurd h (by simp)
    · intro left hleft h
      simp only [condStep] at h
      split at h
      · split at h
        · split at h
          · exact absurd h (by simp)
          · exact (ih toks _ node p1).2.1 _ (by simp [isBoolNode]) h
        · cases h; exact hleft
      · cases h; exact hleft
    · intro h
      simp only [condStep] at h
      split at h
      · exact absurd h (by simp)
      · rename_i x left pos1 heq
        exact (ih toks pos1 node p1).2.1 left ((ih toks pos left pos1).1 heq) h
    · intro left hleft h
      simp only [condStep] at h
      split at h
      · split at h
        · split at h
          · exact absurd h (by simp)
          · exact (ih toks _ node p1).2.2.2.1 _ (by simp [isBoolNode]) h
        · cases h; exact hleft
      · cases h; exact hleft
    · intro h
      simp only [condStep] at h
      split at h
      · exact absurd h (by simp)
      · rename_i x left pos1 heq
        exact (ih toks pos1 node p1).2.2.2.1 left ((ih toks pos left pos1).2.2.1 heq) h

/-- C8: a successful `ConditionParser.parse` always yields a
comparison or logical node at the top, so a condition that parses as
bare arithmetic is rejected ("mathematical expression must be part of
a comparison"); a chained comparison (`a > b > c`) is likewise
rejected, the second comparison operator surfacing as an unexpected
trailing token; in both concrete cases
`ConditionEvaluator.parse_expression` raises `ParseError`. -/
theorem conditionParse_rejects_bare_arithmetic_and_chains :
    (∀ (fuel : Nat) (toks : List Token) (node : ExpressionNode),
        conditionParse fuel toks = .ok node → isBoolNode node = true) ∧
    parseExpression EvaluatorState.init "close + 1" =
      .error (.parseError (parseFailMsg "close + 1"
        (.valueError "Mathematical expression must be part of a comparison"))) ∧
    parseExpression EvaluatorState.init "a > b > c" =
      .error (.parseError (parseFailMsg "a > b > c"
        (.valueError "Unexpected token: >"))) := by
  refine ⟨?_, by decide, by decide⟩
  intro fuel toks node h
  unfold conditionParse condOr at h
  cases hor : condStep fuel .orP toks 0 with
  | error e => rw [hor] at h; exact absurd h (by simp)
  | ok rp =>
    obtain ⟨result, pos⟩ := rp
    rw [hor] at h
    have hb := (condStep_bool fuel toks 0 result pos).2.2.2.2 hor
    dsimp only at h
    by_cases hlt : pos < toks.length
    · rw [if_pos hlt] at h
      split at h <;> exact absurd h (by simp)
    · rw [if_neg hlt] at h
      cases h
      exact hb

/-- Witness for C8: the shape lemma applied to the parse of
`"a > 1"`. -/
theorem conditionParse_rejects_bare_arithmetic_and_chains_witness :
    isBoolNode (.comparison (.var "a") .greaterThan (.number 1)) = true :=
  conditionParse_rejects_bare_arithmetic_and_chains.1 24
    [⟨.identifier, "a", 0⟩, ⟨.comparisonOp, ">", 2⟩, ⟨.number, "1", 4⟩]
    (.comparison (.var "a") .greaterThan (.number 1)) (by decide)

-- ===== C5: parenthesized groups — arithmetic first, boolean on backtrack =====

/-- C5: a parenthesized group is either a pure arithmetic
sub-expression or a full boolean sub-expression.  Both
`"(high - low) / close > 0.05"` and `"(a > b) and (c > d)"` parse
successfully (to the expected ASTs); whenever the arithmetic attempt
on a group raises, or succeeds without stopping at the matching `)`,
the parser re-parses the group as a boolean expression from the saved
cursor position just after the `(`; and in the second example the
arithmetic attempt inside the first group indeed stops at the
comparison operator rather than at `)`, so the boolean re-parse is
what makes the parse succeed. -/
theorem paren_group_backtracks_to_boolean :
    (parseExpression EvaluatorState.init "(high - low) / close > 0.05").map Prod.fst =
      .ok (.comparison
            (.math (.math (.var "high") .subtract (.var "low")) .divide (.var "close"))
            .greaterThan (.number (5 / 100))) ∧
    (parseExpression EvaluatorState.init "(a > b) and (c > d)").map Prod.fst =
      .ok (.logical (.comparison (.var "a") .greaterThan (.var "b")) .and
           (.comparison (.var "c") .greaterThan (.var "d"))) ∧
    (∀ (fuel : Nat) (toks : List Token) (pos : Nat) (t : Token) (e : PyExc),
        currentToken toks pos = some t → t.type = .lparen →
        condAdditive fuel toks (pos + 1) = .error e →
        condPrimary (fuel + 1) toks pos = condParenBool fuel toks (pos + 1)) ∧
    (∀ (fuel : Nat) (toks : List Token) (pos : Nat) (t : Token)
        (res : ExpressionNode) (pos1 : Nat),
        currentToken toks pos = some t → t.type = .lparen →
        condAdditive fuel toks (pos + 1) = .ok (res, pos1) →
        (∀ t2, currentToken toks pos1 = some t2 → t2.type ≠ .rparen) →
        condPrimary (fuel + 1) toks pos = condParenBool fuel toks (pos + 1)) ∧
    (∃ toks, tokenize "(a > b) and (c > d)" = .ok toks ∧
        condAdditive (parseFuel toks) toks 1 = .ok (.var "a", 2) ∧
        currentToken toks 2 = some ⟨.comparisonOp, ">", 3⟩) := by
  have hnum : pyFloatOfNumberString "0.05" = 5 / 100 := by
    show (0 : ℚ) + ((5 : Nat) : ℚ) / (10 : ℚ) ^ 2 = 5 / 100
    norm_num
  have h1 : (parseExpression EvaluatorState.init
      "(high - low) / close > 0.05").map Prod.fst =
      .ok (.comparison
            (.math (.math (.var "high") .subtract (.var "low")) .divide (.var "close"))
            .greaterThan (.number (pyFloatOfNumberString "0.05"))) := rfl
  refine ⟨by rw [h1, hnum], by decide, ?_, ?_,
    ⟨[⟨.lparen, "(", 0⟩, ⟨.identifier, "a", 1⟩, ⟨.comparisonOp, ">", 3⟩,
      ⟨.identifier, "b", 5⟩, ⟨.rparen, ")", 6⟩, ⟨.logicalOp, "and", 8⟩,
      ⟨.lparen, "(", 12⟩, ⟨.identifier, "c", 13⟩, ⟨.comparisonOp, ">", 15⟩,
      ⟨.identifier, "d", 17⟩, ⟨.rparen, ")", 18⟩],
      by decide, by decide, by decide⟩⟩
  · intro fuel toks pos t e hcur ht herr
    unfold condPrimary condParenBool condAdditive at *
    simp [condStep, hcur, ht, herr]
  · intro fuel toks pos t res pos1 hcur ht hok hnr
    unfold condPrimary condParenBool condAdditive at *
    simp only [condStep, hcur, ht, if_true, hok]
    cases hcur2 : currentToken toks pos1 with
    | none => simp
    | some t2 => simp [hnr t2 hcur2]

/-- Witness for C5: the backtracking conjunct applied at the concrete
second group of `"(a > b) and (c > d)"` (cursor at the first `(`,
arithmetic attempt stopping at the `>` token). -/
theorem paren_group_backtracks_to_boolean_witness :
    condPrimary 25
      [⟨.lparen, "(", 0⟩, ⟨.identifier, "a", 1⟩, ⟨.comparisonOp, ">", 3⟩,
       ⟨.identifier, "b", 5⟩, ⟨.rparen, ")", 6⟩, ⟨.logicalOp, "and", 8⟩,
       ⟨.lparen, "(", 12⟩, ⟨.identifier, "c", 13⟩, ⟨.comparisonOp, ">", 15⟩,
       ⟨.identifier, "d", 17⟩, ⟨.rparen, ")", 18⟩] 0 =
    condParenBool 24
      [⟨.lparen, "(", 0⟩, ⟨.identifier, "a", 1⟩, ⟨.comparisonOp, ">", 3⟩,
       ⟨.identifier, "b", 5⟩, ⟨.rparen, ")", 6⟩, ⟨.logicalOp, "and", 8⟩,
       ⟨.lparen, "(", 12⟩, ⟨.identifier, "c", 13⟩, ⟨.comparisonOp, ">", 15⟩,
       ⟨.identifier, "d", 17⟩, ⟨.rparen, ")", 18⟩] 1 :=
  paren_group_backtracks_to_boolean.2.2.2.1 24 _ 0 ⟨.lparen, "(", 0⟩ (.var "a") 2
    (by decide) (by decide) (by decide)
    (fun t2 h => by
      rw [show currentToken
        [⟨.lparen, "(", 0⟩, ⟨.identifier, "a", 1⟩, ⟨.comparisonOp, ">", 3⟩,
         ⟨.identifier, "b", 5⟩, ⟨.rparen, ")", 6⟩, ⟨.logicalOp, "and", 8⟩,
         ⟨.lparen, "(", 12⟩, ⟨.identifier, "c", 13⟩, ⟨.comparisonOp, ">", 15⟩,
         ⟨.identifier, "d", 17⟩, ⟨.rparen, ")", 18⟩] 2 =
          some ⟨.comparisonOp, ">", 3⟩ from by decide] at h
      cases h
      decide)

-- ===== C9: AST cache — hit on re-parse, FIFO eviction, bounded size =====

theorem length_setAssoc_le {α : Type} (l : List (String × α)) (k : String) (v : α) :
    (setAssoc l k v).length ≤ l.length + 1 := by
  induction l with
  | nil => simp [setAssoc]
  | cons p rest ih =>
    by_cases hp : p.1 = k
    · simp [setAssoc, hp]
    · simp only [setAssoc, hp, if_false, List.length_cons]
      omega

theorem parseExpression_ok_cases (ev : EvaluatorState) (s : String)
    (ast : ExpressionNode) (ev' : EvaluatorState)
    (h : parseExpression ev s = .ok (ast, ev')) :
    validateExpressionString s = none ∧
      ((getFromCache ev s = some ast ∧ ev' = ev) ∨
       (getFromCache ev s = none ∧ ev' = manageCache ev s ast)) := by
  unfold parseExpression at h
  cases hval : validateExpressionString s with
  | some e => rw [hval] at h; exact absurd h (by simp)
  | none =>
    rw [hval] at h
    refine ⟨rfl, ?_⟩
    cases hc : getFromCache ev s with
    | some a =>
      rw [hc] at h
      cases h
      exact Or.inl ⟨rfl, rfl⟩
    | none =>
      rw [hc] at h
      cases hp : ((match tokenize s with
          | .error e0 => .error e0
          | .ok toks => conditionParse (parseFuel toks) toks) :
          Except PyExc ExpressionNode) with
      | error e => rw [hp] at h; exact absurd h (by simp)
      | ok a =>
        rw [hp] at h
        cases h
        exact Or.inr ⟨rfl, rfl⟩

/-- C9: (a) parsing a source string a second time returns the very
AST stored in the cache with the evaluator state unchanged (no
re-parse); (b) with the default capacity 1000 and a full cache,
parsing a new (1001st) distinct source string evicts exactly the
first-inserted entry (FIFO); (c) a successful parse never grows the
cache beyond 1000 entries. -/
theorem cache_fifo_eviction_and_hits :
    (∀ (ev : EvaluatorState) (s : String) (ast : ExpressionNode)
        (ev' : EvaluatorState),
        parseExpression ev s = .ok (ast, ev') →
        getFromCache ev' s = some ast ∧ parseExpression ev' s = .ok (ast, ev')) ∧
    (∀ (ev : EvaluatorState) (s k : String) (a0 ast : ExpressionNode)
        (rest : List (String × ExpressionNode)) (ev' : EvaluatorState),
        ev.cacheSize = 1000 →
        ev.cache = (k, a0) :: rest →
        rest.length = 999 →
        k ∉ rest.map Prod.fst →
        getFromCache ev s = none →
        parseExpression ev s = .ok (ast, ev') →
        getFromCache ev' k = none ∧ ev'.cache.length = 1000) ∧
    (∀ (ev : EvaluatorState) (s : String) (ast : ExpressionNode)
        (ev' : EvaluatorState),
        ev.cacheSize = 1000 →
        ev.cache.length ≤ 1000 →
        parseExpression ev s = .ok (ast, ev') →
        ev'.cache.length ≤ 1000) := by
  have hcached : ∀ (ev : EvaluatorState) (s : String) (ast : ExpressionNode),
      validateExpressionString s = none → getFromCache ev s = some ast →
      parseExpression ev s = .ok (ast, ev) := by
    intro ev s ast hval hc
    unfold parseExpression
    rw [hval, hc]
  refine ⟨?_, ?_, ?_⟩
  · intro ev s ast ev' h
    obtain ⟨hval, hcase⟩ := parseExpression_ok_cases ev s ast ev' h
    rcases hcase with ⟨hc, rfl⟩ | ⟨hc, rfl⟩
    · exact ⟨hc, hcached _ s ast hval hc⟩
    · have hc' : getFromCache (manageCache ev s ast) s = some ast := by
        unfold getFromCache manageCache
        exact lookupA_setAssoc_self _ s ast
      exact ⟨hc', hcached _ s ast hval hc'⟩
  · intro ev s k a0 ast rest ev' hsize hcache hlen hk hc h
    obtain ⟨hval, hcase⟩ := parseExpression_ok_cases ev s ast ev' h
    rcases hcase with ⟨hc', _⟩ | ⟨_, rfl⟩
    · rw [hc'] at hc; exact absurd hc (by simp)
    · have hks : k ≠ s := by
        intro heq
        unfold getFromCache at hc
        rw [hcache] at hc
        simp [lookupA, heq] at hc
      have hrest : lookupA rest s = none := by
        unfold getFromCache at hc
        rw [hcache] at hc
        simp only [lookupA] at hc
        by_cases hks' : k = s
        · exact absurd hks' hks
        · simpa [hks'] using hc
      have hcache1 : manageCache ev s ast =
          { ev with cache := setAssoc rest s ast } := by
        unfold manageCache
        rw [hcache, hsize]
        simp [hlen]
      rw [hcache1]
      have hset : setAssoc rest s ast = rest ++ [(s, ast)] :=
        setAssoc_of_lookupA_none rest s ast hrest
      constructor
      · unfold getFromCache
        simp only [hset]
        rw [lookupA_append]
        rw [(lookupA_eq_none_iff rest k).mpr hk]
        simp [lookupA, Ne.symm hks]
      · simp [hset, hlen]
  · intro ev s ast ev' hsize hlen h
    obtain ⟨hval, hcase⟩ := parseExpression_ok_cases ev s ast ev' h
    rcases hcase with ⟨_, rfl⟩ | ⟨_, rfl⟩
    · exact hlen
    · unfold manageCache
      rw [hsize]
      by_cases hfull : ev.cache.length ≥ 1000
      · have h1000 : ev.cache.length = 1000 := le_antisymm hlen hfull
        simp only [hfull, if_true, ge_iff_le]
        cases hcc : ev.cache with
        | nil => rw [hcc] at h1000; simp at h1000
        | cons p t =>
          simp only
          calc (setAssoc t s ast).length ≤ t.length + 1 := length_setAssoc_le t s ast
            _ ≤ 1000 := by
                have : t.length + 1 = 1000 := by
                  rw [hcc] at h1000; simpa using h1000
                omega
      · simp only [ge_iff_le, hfull, if_false]
        calc (setAssoc ev.cache s ast).length ≤ ev.cache.length + 1 :=
              length_setAssoc_le _ s ast
          _ ≤ 1000 := by omega

/-- A full 1000-entry cache whose first-inserted key is `"k0"`. -/
def fullCache : List (String × ExpressionNode) :=
  ("k0", .number 0) ::
    (List.range 999).map (fun i => ("x" ++ toString i, ExpressionNode.number 0))

/-- A default-capacity evaluator holding `fullCache`. -/
def fullCacheEvaluator : EvaluatorState :=
  { cache := fullCache, cacheSize := 1000 }

set_option maxRecDepth 8000 in
/-- Witness for C9: on the concrete full evaluator, parsing the new
string `"close > 0"` evicts `"k0"` and the cache stays at 1000
entries. -/
theorem cache_fifo_eviction_and_hits_witness :
    getFromCache
        (manageCache fullCacheEvaluator "close > 0"
          (.comparison (.var "close") .greaterThan (.number 0))) "k0" = none ∧
    (manageCache fullCacheEvaluator "close > 0"
        (.comparison (.var "close") .greaterThan (.number 0))).cache.length = 1000 :=
  cache_fifo_eviction_and_hits.2.1 fullCacheEvaluator "close > 0" "k0"
    (.number 0) (.comparison (.var "close") .greaterThan (.number 0))
    ((List.range 999).map (fun i => ("x" ++ toString i, ExpressionNode.number 0)))
    (manageCache fullCacheEvaluator "close > 0"
      (.comparison (.var "close") .greaterThan (.number 0)))
    rfl rfl (by simp) (by decide) (by decide) rfl

-- ===== C2: an Active trigger is skipped by the per-bar check =====

theorem executeTriggerActions_activeTriggers (s : BaseStrategyState) (tr : Trigger)
    (o : SubmitOutcome) :
    (executeTriggerActions s tr o).activeTriggers =
      if tr.name ∈ s.activeTriggers then s.activeTriggers
      else s.activeTriggers ++ [tr.name] := by
  unfold executeTriggerActions trackOrder
  rcases tr.actions with _ | ⟨a, rest⟩ <;> rcases o <;>
    by_cases h : tr.name ∈ s.activeTriggers <;>
      simp [h] <;> split <;> rfl

theorem executeTriggerActions_active_mono (s : BaseStrategyState) (tr : Trigger)
    (o : SubmitOutcome) (name : String) (h : name ∈ s.activeTriggers) :
    name ∈ (executeTriggerActions s tr o).activeTriggers := by
  rw [executeTriggerActions_activeTriggers]
  split
  · exact h
  · exact List.mem_append_left _ h

theorem nextBarGo_skips_active (conds : String → CondOutcome)
    (submits : String → SubmitOutcome) :
    ∀ (trigs : List (String × Trigger)) (s : BaseStrategyState)
      (ev fi : List String) (name : String),
      name ∈ s.activeTriggers → name ∉ ev → name ∉ fi →
      name ∉ (nextBarGo conds submits trigs s ev fi).evaluated ∧
      name ∉ (nextBarGo conds submits trigs s ev fi).fired := by
  intro trigs
  induction trigs with
  | nil =>
    intro s ev fi name h hev hfi
    exact ⟨hev, hfi⟩
  | cons p rest ih =>
    intro s ev fi name h hev hfi
    obtain ⟨k, tr⟩ := p
    by_cases he : tr.enabled
    · by_cases ha : tr.name ∈ s.activeTriggers
      · simpa [nextBarGo, he, ha] using ih s ev fi name h hev hfi
      · have hne : name ≠ tr.name := fun heq => ha (heq ▸ h)
        by_cases hf : (match conds tr.condition with | .ok b => b | .exc => false) = true
        · have := ih (executeTriggerActions s tr (submits tr.name))
            (ev ++ [tr.name]) (fi ++ [tr.name]) name
            (executeTriggerActions_active_mono s tr _ name h)
            (by simp [hev, hne]) (by simp [hfi, hne])
          simpa [nextBarGo, he, ha, hf] using this
        · have := ih s (ev ++ [tr.name]) fi name h (by simp [hev, hne]) hfi
          simpa [nextBarGo, he, ha, hf] using this
    · simpa [nextBarGo, he] using ih s ev fi name h hev hfi

/-- C2: on every bar, a trigger whose name is in the engine's active
set has its condition skipped — it is never evaluated and never starts
a new action sequence that bar, whatever its condition would evaluate
to (the claim holds for every condition oracle, in particular one
returning true). -/
theorem active_trigger_not_reevaluated_or_refired :
    ∀ (s : BaseStrategyState) (conds : String → CondOutcome)
      (submits : String → SubmitOutcome) (name : String),
      name ∈ s.activeTriggers →
      name ∉ (nextBar s conds submits).evaluated ∧
      name ∉ (nextBar s conds submits).fired := by
  intro s conds submits name h
  exact nextBarGo_skips_active conds submits s.triggerSystem.triggers s [] [] name h
    (List.not_mem_nil name) (List.not_mem_nil name)

/-- Witness for C2: a concrete engine state whose only trigger is
Active with an always-true condition; it is neither evaluated nor
fired on the bar. -/
theorem active_trigger_not_reevaluated_or_refired_witness :
    "t" ∉ (nextBar
      { triggerSystem :=
          { triggers := [("t", { name := "t", condition := "close > 100",
                                 actions := [{ name := "buy", type := "TradeAction",
                                               parameters := [] }] })],
            conditionEvaluator := EvaluatorState.init },
        triggerOrders := [], pendingActions := [], activeTriggers := ["t"],
        executedTriggers := [] }
      (fun _ => .ok true) (fun _ => .ok 1)).evaluated ∧
    "t" ∉ (nextBar
      { triggerSystem :=
          { triggers := [("t", { name := "t", condition := "close > 100",
                                 actions := [{ name := "buy", type := "TradeAction",
                                               parameters := [] }] })],
            conditionEvaluator := EvaluatorState.init },
        triggerOrders := [], pendingActions := [], activeTriggers := ["t"],
        executedTriggers := [] }
      (fun _ => .ok true) (fun _ => .ok 1)).fired :=
  active_trigger_not_reevaluated_or_refired _ (fun _ => .ok true) (fun _ => .ok 1)
    "t" (by decide)

-- ===== C3: a condition evaluation error skips only that trigger =====

theorem nextBarGo_evaluated_eq (conds : String → CondOutcome)
    (submits : String → SubmitOutcome) :
    ∀ (trigs : List (String × Trigger)) (s : BaseStrategyState)
      (ev fi : List String),
      (trigs.map (fun p => p.2.name)).Nodup →
      (nextBarGo conds submits trigs s ev fi).evaluated =
        ev ++ (trigs.filter (fun p => p.2.enabled &&
                 !(decide (p.2.name ∈ s.activeTriggers)))).map (fun p => p.2.name) := by
  intro trigs
  induction trigs with
  | nil => intro s ev fi _; simp [nextBarGo]
  | cons p rest ih =>
    intro s ev fi hnd
    obtain ⟨k, tr⟩ := p
    simp only [List.map_cons, List.nodup_cons] at hnd
    by_cases he : tr.enabled
    · by_cases ha : tr.name ∈ s.activeTriggers
      · rw [show nextBarGo conds submits ((k, tr) :: rest) s ev fi =
            nextBarGo conds submits rest s ev fi from by simp [nextBarGo, he, ha]]
        rw [ih s ev fi hnd.2]
        congr 1
        rw [List.filter_cons]
        simp [he, ha]
      · by_cases hf : (match conds tr.condition with | .ok b => b | .exc => false) = true
        · rw [show nextBarGo conds submits ((k, tr) :: rest) s ev fi =
              nextBarGo conds submits rest
                (executeTriggerActions s tr (submits tr.name))
                (ev ++ [tr.name]) (fi ++ [tr.name]) from by
            simp [nextBarGo, he, ha, hf]]
          rw [ih _ _ _ hnd.2]
          have hfilter :
              rest.filter (fun p => p.2.enabled &&
                !(decide (p.2.name ∈
                  (executeTriggerActions s tr (submits tr.name)).activeTriggers))) =
              rest.filter (fun p => p.2.enabled &&
                !(decide (p.2.name ∈ s.activeTriggers))) := by
            apply List.filter_congr
            intro x hx
            have hxne : x.2.name ≠ tr.name := fun heq =>
              hnd.1 (heq ▸ List.mem_map_of_mem (fun p => p.2.name) hx)
            rw [executeTriggerActions_activeTriggers]
            simp only [ha, if_false]
            have : (x.2.name ∈ s.activeTriggers ++ [tr.name]) ↔
                (x.2.name ∈ s.activeTriggers) := by
              simp [List.mem_append, hxne]
            simp [this]
          rw [hfilter]
          rw [List.filter_cons]
          simp [he, ha, List.append_assoc]
        · rw [show nextBarGo conds submits ((k, tr) :: rest) s ev fi =
              nextBarGo conds submits rest s (ev ++ [tr.name]) fi from by
            simp [nextBarGo, he, ha, hf]]
          rw [ih s _ fi hnd.2]
          rw [List.filter_cons]
          simp [he, ha, List.append_assoc]
    · rw [show nextBarGo conds submits ((k, tr) :: rest) s ev fi =
          nextBarGo conds submits rest s ev fi from by simp [nextBarGo, he]]
      rw [ih s ev fi hnd.2]
      rw [List.filter_cons]
      simp [he]

theorem nextBarGo_fired_subset (conds : String → CondOutcome)
    (submits : String → SubmitOutcome) :
    ∀ (trigs : List (String × Trigger)) (s : BaseStrategyState)
      (ev fi : List String) (name : String),
      name ∈ (nextBarGo conds submits trigs s ev fi).fired →
      name ∈ fi ∨ ∃ p ∈ trigs, p.2.name = name ∧ p.2.enabled = true ∧
        (match conds p.2.condition with | .ok b => b | .exc => false) = true := by
  intro trigs
  induction trigs with
  | nil => intro s ev fi name h; exact Or.inl h
  | cons p rest ih =>
    intro s ev fi name h
    obtain ⟨k, tr⟩ := p
    by_cases he : tr.enabled
    · by_cases ha : tr.name ∈ s.activeTriggers
      · rw [show nextBarGo conds submits ((k, tr) :: rest) s ev fi =
            nextBarGo conds submits rest s ev fi from by simp [nextBarGo, he, ha]] at h
        rcases ih s ev fi name h with hf | ⟨q, hq, hrest⟩
        · exact Or.inl hf
        · exact Or.inr ⟨q, List.mem_cons_of_mem _ hq, hrest⟩
      · by_cases hf : (match conds tr.condition with | .ok b => b | .exc => false) = true
        · rw [show nextBarGo conds submits ((k, tr) :: rest) s ev fi =
              nextBarGo conds submits rest
                (executeTriggerActions s tr (submits tr.name))
                (ev ++ [tr.name]) (fi ++ [tr.name]) from by
            simp [nextBarGo, he, ha, hf]] at h
          rcases ih _ _ _ name h with hfi | ⟨q, hq, hrest⟩
          · rcases List.mem_append.mp hfi with hfi | hname
            · exact Or.inl hfi
            · have : name = tr.name := by simpa using hname
              exact Or.inr ⟨(k, tr), List.mem_cons_self _ _, this.symm, he, hf⟩
          · exact Or.inr ⟨q, List.mem_cons_of_mem _ hq, hrest⟩
        · rw [show nextBarGo conds submits ((k, tr) :: rest) s ev fi =
              nextBarGo conds submits rest s (ev ++ [tr.name]) fi from by
            simp [nextBarGo, he, ha, hf]] at h
          rcases ih s _ fi name h with hfi | ⟨q, hq, hrest⟩
          · exact Or.inl hfi
          · exact Or.inr ⟨q, List.mem_cons_of_mem _ hq, hrest⟩
    · rw [show nextBarGo conds submits ((k, tr) :: rest) s ev fi =
          nextBarGo conds submits rest s ev fi from by simp [nextBarGo, he]] at h
      rcases ih s ev fi name h with hfi | ⟨q, hq, hrest⟩
      · exact Or.inl hfi
      · exact Or.inr ⟨q, List.mem_cons_of_mem _ hq, hrest⟩

/-- C3: when one enabled, inactive trigger's condition raises
(`test_condition` logs the error and yields `False`), that trigger is
simply not fired that bar, while its condition still counts as
evaluated; and the bar's evaluation list is exactly the enabled,
inactive triggers of the registry in order — errors in one trigger
never prevent the remaining triggers from being evaluated (the
per-bar entry point is a total function of the outcomes, so no error
propagates out of it). -/
theorem condition_error_skips_only_that_trigger :
    ∀ (s : BaseStrategyState) (conds : String → CondOutcome)
      (submits : String → SubmitOutcome) (k : String) (tr : Trigger),
      (s.triggerSystem.triggers.map (fun p => p.2.name)).Nodup →
      (k, tr) ∈ s.triggerSystem.triggers →
      tr.enabled = true →
      tr.name ∉ s.activeTriggers →
      conds tr.condition = .exc →
      tr.name ∈ (nextBar s conds submits).evaluated ∧
      tr.name ∉ (nextBar s conds submits).fired ∧
      (nextBar s conds submits).evaluated =
        (s.triggerSystem.triggers.filter (fun p => p.2.enabled &&
           !(decide (p.2.name ∈ s.activeTriggers)))).map (fun p => p.2.name) := by
  intro s conds submits k tr hnd hmem he ha hexc
  have heval := nextBarGo_evaluated_eq conds submits s.triggerSystem.triggers s [] [] hnd
  have heval' : (nextBar s conds submits).evaluated =
      (s.triggerSystem.triggers.filter (fun p => p.2.enabled &&
         !(decide (p.2.name ∈ s.activeTriggers)))).map (fun p => p.2.name) := by
    unfold nextBar
    simpa using heval
  refine ⟨?_, ?_, heval'⟩
  · rw [heval']
    refine List.mem_map_of_mem (fun p => p.2.name) (List.mem_filter.mpr ⟨hmem, ?_⟩)
    have : ((k, tr).2.enabled && !(decide ((k, tr).2.name ∈ s.activeTriggers))) = true := by
      simp [he, ha]
    exact this
  · intro hf
    unfold nextBar at hf
    rcases nextBarGo_fired_subset conds submits s.triggerSystem.triggers s [] []
        tr.name hf with hfi | ⟨q, hq, hname, _, hflag⟩
    · exact absurd hfi (List.not_mem_nil _)
    · have : q = (k, tr) :=
        List.inj_on_of_nodup_map hnd hq hmem (by simpa using hname)
      rw [this] at hflag
      simp only at hflag
      rw [hexc] at hflag
      exact absurd hflag (by simp)

/-- Witness for C3: two enabled triggers, the first condition raising;
the second is still evaluated and the first is not fired. -/
theorem condition_error_skips_only_that_trigger_witness :
    "t1" ∈ (nextBar
      { triggerSystem :=
          { triggers :=
              [("t1", { name := "t1", condition := "c1",
                        actions := [{ name := "a1", type := "TradeAction",
                                      parameters := [] }] }),
               ("t2", { name := "t2", condition := "c2",
                        actions := [{ name := "a2", type := "TradeAction",
                                      parameters := [] }] })],
            conditionEvaluator := EvaluatorState.init },
        triggerOrders := [], pendingActions := [], activeTriggers := [],
        executedTriggers := [] }
      (fun c => if c = "c1" then .exc else .ok true) (fun _ => .ok 1)).evaluated ∧
    "t1" ∉ (nextBar
      { triggerSystem :=
          { triggers :=
              [("t1", { name := "t1", condition := "c1",
                        actions := [{ name := "a1", type := "TradeAction",
                                      parameters := [] }] }),
               ("t2", { name := "t2", condition := "c2",
                        actions := [{ name := "a2", type := "TradeAction",
                                      parameters := [] }] })],
            conditionEvaluator := EvaluatorState.init },
        triggerOrders := [], pendingActions := [], activeTriggers := [],
        executedTriggers := [] }
      (fun c => if c = "c1" then .exc else .ok true) (fun _ => .ok 1)).fired ∧
    (nextBar
      { triggerSystem :=
          { triggers :=
              [("t1", { name := "t1", condition := "c1",
                        actions := [{ name := "a1", type := "TradeAction",
                                      parameters := [] }] }),
               ("t2", { name := "t2", condition := "c2",
                        actions := [{ name := "a2", type := "TradeAction",
                                      parameters := [] }] })],
            conditionEvaluator := EvaluatorState.init },
        triggerOrders := [], pendingActions := [], activeTriggers := [],
        executedTriggers := [] }
      (fun c => if c = "c1" then .exc else .ok true) (fun _ => .ok 1)).evaluated =
      ["t1", "t2"] := by
  have h := condition_error_skips_only_that_trigger
    { triggerSystem :=
        { triggers :=
            [("t1", { name := "t1", condition := "c1",
                      actions := [{ name := "a1", type := "TradeAction",
                                    parameters := [] }] }),
             ("t2", { name := "t2", condition := "c2",
                      actions := [{ name := "a2", type := "TradeAction",
                                    parameters := [] }] })],
          conditionEvaluator := EvaluatorState.init },
      triggerOrders := [], pendingActions := [], activeTriggers := [],
      executedTriggers := [] }
    (fun c => if c = "c1" then .exc else .ok true) (fun _ => .ok 1)
    "t1" { name := "t1", condition := "c1",
           actions := [{ name := "a1", type := "TradeAction", parameters := [] }] }
    (by decide) (by simp) (by decide) (by decide) (by decide)
  refine ⟨h.1, h.2.1, ?_⟩
  rw [h.2.2]
  decide

-- ===== C1: failure cleanup is complete, but a trigger can still get stuck =====

/-- C1 (amended): on an order-failure notification for a tracked
order, the owning trigger's pending queue is dropped, every recorded
order handle of that trigger is cleared, and the trigger leaves the
active set (the `Nodup` hypotheses state that the Python `set` and
`dict`s the fields model cannot hold duplicates). -/
theorem failed_order_notification_cleans_up :
    ∀ (s : BaseStrategyState) (handle : Nat) (tn an : String),
      findOrderTrigger s.triggerOrders handle = some (tn, an) →
      s.activeTriggers.Nodup →
      (s.pendingActions.map Prod.fst).Nodup →
      lookupA (handleFailedOrder s handle).pendingActions tn = none ∧
      tn ∉ (handleFailedOrder s handle).activeTriggers ∧
      (∀ inner, lookupA (handleFailedOrder s handle).triggerOrders tn = some inner →
        ∀ p ∈ inner, p.2 = (none : Option Nat)) := by
  intro s handle tn an hfind hactive hpend
  unfold handleFailedOrder
  rw [hfind]
  unfold cleanupFailedTrigger
  cases horders : lookupA s.triggerOrders tn with
  | some inner =>
    simp only [horders]
    refine ⟨lookupA_eraseKey_self _ tn hpend, ?_, ?_⟩
    · intro hmem
      have := (List.Nodup.mem_erase_iff hactive).mp hmem
      exact this.1 rfl
    · intro inner' hinner' p hp
      rw [lookupA_setAssoc_self] at hinner'
      cases hinner'
      obtain ⟨q, _, rfl⟩ := List.mem_map.mp hp
      rfl
  | none =>
    simp only [horders]
    refine ⟨lookupA_eraseKey_self _ tn hpend, ?_, ?_⟩
    · intro hmem
      have := (List.Nodup.mem_erase_iff hactive).mp hmem
      exact this.1 rfl
    · intro inner' hinner'
      simp at hinner'

/-- Witness for C1's amended theorem: a concrete tracked order whose
failure cleans up its trigger completely. -/
theorem failed_order_notification_cleans_up_witness :
    lookupA (handleFailedOrder
      { triggerSystem := TriggerSystem.init,
        triggerOrders := [("t", [("buy", some 7)])],
        pendingActions := [("t", ["stop"])],
        activeTriggers := ["t"], executedTriggers := ["t"] } 7).pendingActions "t" =
      none ∧
    "t" ∉ (handleFailedOrder
      { triggerSystem := TriggerSystem.init,
        triggerOrders := [("t", [("buy", some 7)])],
        pendingActions := [("t", ["stop"])],
        activeTriggers := ["t"], executedTriggers := ["t"] } 7).activeTriggers ∧
    (∀ inner, lookupA (handleFailedOrder
      { triggerSystem := TriggerSystem.init,
        triggerOrders := [("t", [("buy", some 7)])],
        pendingActions := [("t", ["stop"])],
        activeTriggers := ["t"], executedTriggers := ["t"] } 7).triggerOrders "t" =
        some inner →
      ∀ p ∈ inner, p.2 = (none : Option Nat)) :=
  failed_order_notification_cleans_up
    { triggerSystem := TriggerSystem.init,
      triggerOrders := [("t", [("buy", some 7)])],
      pendingActions := [("t", ["stop"])],
      activeTriggers := ["t"], executedTriggers := ["t"] } 7 "t" "buy"
    (by decide) (by decide) (by decide)

/-- The one-trigger registry of the stuck-Active scenario. -/
def stuckSys : TriggerSystem :=
  { triggers := [("t", { name := "t", condition := "close > 100",
                         actions := [{ name := "buy", type := "TradeAction",
                                       parameters := [] }] })],
    conditionEvaluator := EvaluatorState.init }

/-- A fresh engine state over `stuckSys`. -/
def stuckS0 : BaseStrategyState :=
  { triggerSystem := stuckSys, triggerOrders := [], pendingActions := [],
    activeTriggers := [], executedTriggers := [] }

/-- The state after one bar on which the trigger's condition is true
but the broker declines the first order submission
(`_create_order` returns `None`, e.g. insufficient cash). -/
def stuckS1 : BaseStrategyState :=
  (nextBar stuckS0 (fun _ => .ok true) (fun _ => .refused)).state

/-- A trigger name that is Active now and stays Active under every
sequence of engine entry points (bars, completion notifications,
failure notifications). -/
def StuckActiveForever (s : BaseStrategyState) (name : String) : Prop :=
  name ∈ s.activeTriggers ∧ ∀ events, name ∈ (runEvents s events).activeTriggers

theorem stuckS1_eq :
    stuckS1 = { triggerSystem := stuckSys, triggerOrders := [],
                pendingActions := [], activeTriggers := ["t"],
                executedTriggers := ["t"] } := by
  decide

theorem stuckS1_step_fixed (e : EngineEvent) : engineStep stuckS1 e = stuckS1 := by
  rw [stuckS1_eq]
  cases e with
  | bar conds submits => rfl
  | notify status handle nextSubmit => cases status <;> rfl

/-- C1 counterexample: after the bar on which the only trigger fires
but its first submission is declined, the trigger is in the active set
with no tracked order and no pending actions, and every sequence of
engine events leaves it there — it is permanently stuck Active, so
"no execution path leaves a trigger permanently in the active set with
no tracked outstanding order and no way to leave" is false for the
code as written. -/
theorem trigger_stuck_active_counterexample :
    stuckS1.activeTriggers = ["t"] ∧
    stuckS1.triggerOrders = [] ∧
    stuckS1.pendingActions = [] ∧
    StuckActiveForever stuckS1 "t" := by
  refine ⟨by rw [stuckS1_eq], by rw [stuckS1_eq], by rw [stuckS1_eq],
    by rw [stuckS1_eq]; decide, ?_⟩
  intro events
  have hrun : runEvents stuckS1 events = stuckS1 := by
    induction events with
    | nil => rfl
    | cons e rest ih =>
      show runEvents (engineStep stuckS1 e) rest = stuckS1
      rw [stuckS1_step_fixed e]
      exact ih
  rw [hrun, stuckS1_eq]
  decide

-- ===== C6: variable path resolution =====

/-- C6 (amended): `VariableNode.evaluate` first tries the exact flat
key, coercing to float (`EvaluationError` when coercion fails); when
the key is absent it resolves structurally from the context's
`strategy` entry exactly when `_build_parts` splits the path into
more than one part, and otherwise raises variable-not-found; in a
resolution step, a string part is looked up as an attribute first and
as a mapping entry second, and a miss raises an `EvaluationError`
whose message embeds the node's original full path; an integer part
indexes a sequence, and a miss raises an `EvaluationError` naming the
failing index. -/
theorem variable_path_resolution :
    (∀ (name : String) (ctx : Ctx) (v : PyObj) (x : ℚ),
        lookupA ctx name = some v → v.toFloat = some x →
        (ExpressionNode.var name).evaluate ctx = .ok (.num x)) ∧
    (∀ (name : String) (ctx : Ctx) (v : PyObj),
        lookupA ctx name = some v → v.toFloat = none →
        (ExpressionNode.var name).evaluate ctx =
          .error (.evaluationError (convertFailMsg name))) ∧
    (∀ (name : String) (ctx : Ctx),
        lookupA ctx name = none → 1 < (buildParts name).length →
        (ExpressionNode.var name).evaluate ctx =
          (match evaluatePath name ((lookupA ctx "strategy").getD (.dict []))
              (buildParts name) with
           | .error e => .error e
           | .ok cur =>
             match cur.toFloat with
             | some x => .ok (.num x)
             | none => .error (.typeError floatArgErrMsg))) ∧
    (∀ (name : String) (ctx : Ctx),
        lookupA ctx name = none → (buildParts name).length ≤ 1 →
        (ExpressionNode.var name).evaluate ctx =
          .error (.evaluationError (varNotFoundMsg name))) ∧
    (∀ (selfName s : String) (attrs : List (String × PyObj)) (v : PyObj),
        s ≠ "" → lookupA attrs s = some v →
        evaluateName selfName (.obj attrs) s = .ok v) ∧
    (∀ (selfName s : String) (entries : List (String × PyObj)) (v : PyObj),
        s ≠ "" → lookupA entries s = some v →
        evaluateName selfName (.dict entries) s = .ok v) ∧
    (∀ (selfName s : String) (cur : PyObj) (e : PyExc),
        s ≠ "" → evaluateName selfName cur s = .error e →
        e = .evaluationError (varNotFoundMsg selfName)) ∧
    (∀ (selfName : String),
        List.IsInfix selfName.toList (varNotFoundMsg selfName).toList) ∧
    (∀ (items : List PyObj) (n : Nat) (h : n < items.length),
        evaluateIdx (.seq items) n = .ok (items.get ⟨n, h⟩)) ∧
    (∀ (items : List PyObj) (n : Nat), items.length ≤ n →
        evaluateIdx (.seq items) n = .error (.evaluationError (idxOutOfRangeMsg n))) := by
  refine ⟨?_, ?_, ?_, ?_, ?_, ?_, ?_, ?_, ?_, ?_⟩
  · intro name ctx v x hl hf
    simp [ExpressionNode.evaluate, hl, hf]
  · intro name ctx v hl hf
    simp [ExpressionNode.evaluate, hl, hf]
  · intro name ctx hl hlen
    simp [ExpressionNode.evaluate, hl, hlen]
  · intro name ctx hl hlen
    simp [ExpressionNode.evaluate, hl, Nat.not_lt.mpr hlen]
  · intro selfName s attrs v hs hl
    simp [evaluateName, hs, hl]
  · intro selfName s entries v hs hl
    simp [evaluateName, hs, hl]
  · intro selfName s cur e hs h
    unfold evaluateName at h
    rw [if_neg hs] at h
    cases cur with
    | obj attrs =>
      dsimp only at h
      cases hl : lookupA attrs s with
      | some v => rw [hl] at h; exact absurd h (by simp)
      | none => rw [hl] at h; cases h; rfl
    | dict entries =>
      dsimp only at h
      cases hl : lookupA entries s with
      | some v => rw [hl] at h; exact absurd h (by simp)
      | none => rw [hl] at h; cases h; rfl
    | num x => dsimp only at h; cases h; rfl
    | seq items => dsimp only at h; cases h; rfl
  · intro selfName
    refine ⟨"Variable \x27".toList, "\x27 not found in context".toList, ?_⟩
    show ("Variable \x27".toList ++ selfName.toList) ++
        "\x27 not found in context".toList = (varNotFoundMsg selfName).toList
    rw [List.append_assoc]
    rfl
  · intro items n h
    simp [evaluateIdx, h]
  · intro items n h
    simp [evaluateIdx, Nat.not_lt.mpr h]

/-- Witness for C6's amended theorem at concrete inputs: a flat hit,
and a successful sequence index. -/
theorem variable_path_resolution_witness :
    (ExpressionNode.var "close").evaluate [("close", PyObj.num 3)] = .ok (.num 3) ∧
    evaluateIdx (.seq [PyObj.num 7]) 0 = .ok (PyObj.num 7) :=
  ⟨variable_path_resolution.1 "close" [("close", PyObj.num 3)] (PyObj.num 3) 3
      rfl rfl,
   variable_path_resolution.2.2.2.2.2.2.2.2.1 [PyObj.num 7] 0 (by decide)⟩

/-- The concrete context of the C6 counterexample: a `strategy` object
exposing a one-element `datas` sequence and a numeric attribute `a`. -/
def c6Ctx : Ctx :=
  [("strategy", PyObj.obj [("datas", PyObj.seq [PyObj.num 7]), ("a", PyObj.num 42)])]

/-- C6 counterexample: (i) the missing step of `"datas[5]"` is an
out-of-range integer index, and the raised message ("Index '5' out of
range") does not contain the original full path, contradicting "any
missing step raises an EvaluationError whose message names the
original full path"; (ii) the path `".a"` contains a dot and
`strategy.a` exists, yet evaluation raises variable-not-found — the
structural branch is guarded by the split producing more than one
part, not by the path containing a dot or bracket. -/
theorem variable_path_resolution_counterexample :
    (ExpressionNode.var "datas[5]").evaluate c6Ctx =
      .error (.evaluationError "Index \x275\x27 out of range") ∧
    ¬ List.IsInfix "datas[5]".toList "Index \x275\x27 out of range".toList ∧
    '.' ∈ ".a".toList ∧
    lookupA c6Ctx ".a" = none ∧
    evaluateName ".a" ((lookupA c6Ctx "strategy").getD (.dict [])) "a" =
      .ok (PyObj.num 42) ∧
    (ExpressionNode.var ".a").evaluate c6Ctx =
      .error (.evaluationError (varNotFoundMsg ".a")) := by
  refine ⟨?_, by decide, by decide, rfl, rfl, by decide⟩
  have h1 : buildParts "datas[5]" = [.name "datas", .nested [.idx 5]] := rfl
  simp only [ExpressionNode.evaluate, h1, evaluatePath, pathLoop, evaluateName, evaluateIdx]
  decide

end DeepQuant
